import Mathlib

/-!
Verification development for the Knative topology data-transformation layer
(`knative-plugin/.../topology/topology-utils.ts`).

The TypeScript source is shallowly embedded: plain JS objects become Lean
structures with `Option` fields for properties that may be absent
(JS `undefined`/`null` collapse to `none`), `lodash` collection helpers
become the corresponding pure list operations, and the handful of functions
imported from packages outside this fragment (`@console/shared`,
`@console/dev-console`, `@console/internal`, the model descriptors) are
modelled from the specification; every such definition carries a doc
comment starting with `Modelled from the spec:`.

JS conventions captured by the embedding:
* string truthiness (`undefined`, `null` and `""` are falsy) is `strTruthy`;
* template-literal stringification of a possibly-missing string is `jsStr`
  (`undefined` prints as `"undefined"`);
* `===` between possibly-missing strings is `Option` equality
  (`undefined === undefined` is `true`);
* numbers are modelled as `Option Int`: `none` stands for
  `undefined`/`NaN`, and `+` with a missing operand yields `none`
  (`jsAdd`), mirroring NaN propagation.
-/

/-- One entry of `metadata.ownerReferences`: the owning resource uid. -/
structure OwnerRef where
  uid : String
  deriving Repr, DecidableEq

/-- One entry of a Knative service `status.traffic` list. -/
structure TrafficEntry where
  revisionName : Option String := none
  percent : Option Int := none
  url : Option String := none
  deriving Repr, DecidableEq

/-- `spec.sink.ref` / `spec.subscriber.ref` / `spec.channel` object reference. -/
structure SinkRef where
  apiVersion : Option String := none
  kind : Option String := none
  name : Option String := none
  deriving Repr, DecidableEq

/-- A sink / subscriber value: either an object reference or a raw URI. -/
structure Sink where
  ref : Option SinkRef := none
  uri : Option String := none
  deriving Repr, DecidableEq

/-- One entry of a channel subscriber list (`spec.subscribable.subscribers`). -/
structure Subscriber where
  uid : Option String := none
  deriving Repr, DecidableEq

/-- The `spec.subscribable` payload of a channel. -/
structure Subscribable where
  subscribers : Option (List Subscriber) := none
  deriving Repr, DecidableEq

/-- The kind-specific `spec` payload; unused fields are simply `none`.
`sinkUri` is the field of the synthesized sink-uri record. -/
structure Spec where
  sink : Option Sink := none
  sinkUri : Option String := none
  broker : Option String := none
  subscriber : Option Sink := none
  channel : Option SinkRef := none
  subscribable : Option Subscribable := none
  subscribers : Option (List Subscriber) := none
  paused : Option Bool := none
  deriving Repr, DecidableEq

/-- The kind-specific `status` payload. -/
structure Status where
  traffic : Option (List TrafficEntry) := none
  url : Option String := none
  deriving Repr, DecidableEq

/-- `metadata` of a resource.  The source field `namespace` is a Lean
keyword and is embedded as `ns`. -/
structure Metadata where
  uid : Option String := none
  name : Option String := none
  ns : Option String := none
  ownerReferences : Option (List OwnerRef) := none
  labels : Option (List (String × String)) := none
  annotations : Option (List (String × String)) := none
  deriving Repr, DecidableEq

/-- The ad-hoc `type: { nodeType }` field the source attaches to the
synthesized sink-uri record. -/
structure TypeField where
  nodeType : Option String := none
  deriving Repr, DecidableEq

/-- A Kubernetes resource as the fragment sees it (`K8sResourceKind`). -/
structure K8sResourceKind where
  kind : Option String := none
  apiVersion : Option String := none
  metadata : Metadata := {}
  spec : Option Spec := none
  status : Option Status := none
  type : Option TypeField := none
  deriving Repr, DecidableEq

/-- JS string truthiness: `undefined`, `null` and `""` are falsy. -/
def strTruthy : Option String → Bool
  | none => false
  | some s => decide (s ≠ "")

/-- JS template-literal stringification of a possibly-missing string. -/
def jsStr : Option String → String
  | none => "undefined"
  | some s => s

/-- JS `a || b` on possibly-missing strings. -/
def jsOr (a b : Option String) : Option String :=
  if strTruthy a then a else b

/-- JS `+` on numbers where `none` stands for `undefined`/`NaN`. -/
def jsAdd : Option Int → Option Int → Option Int
  | some a, some b => some (a + b)
  | _, _ => none

/-- JS `+=`-accumulation of a list of numbers, seeded with the first one
(the way the traffic-edge merge accumulates `percent`). -/
def jsSum : List (Option Int) → Option Int
  | [] => none
  | h :: t => t.foldl jsAdd h

/-- `NodeType` string tags. -/
def NodeType.EventSource : String := "event-source"

def NodeType.KnService : String := "knative-service"

def NodeType.Revision : String := "knative-revision"

def NodeType.PubSub : String := "event-pubsub"

def NodeType.SinkUri : String := "sink-uri"

/-- `EdgeType` string tags. -/
def EdgeType.Traffic : String := "revision-traffic"

def EdgeType.EventSource : String := "event-source-link"

def EdgeType.EventPubSubLink : String := "event-pubsub-link"

/-- Modelled from the spec: a model descriptor (kind tag, API group and
version, plural) from the `models` module, which is outside this fragment.
Only the `kind` tag and the group/version strings are ever read here. -/
structure K8sModel where
  kind : String
  apiGroup : String
  apiVersion : String
  plural : String
  deriving Repr, DecidableEq

/-- Modelled from the spec: the eventing broker model ("the broker kind"). -/
def EventingBrokerModel : K8sModel :=
  { kind := "Broker", apiGroup := "eventing.knative.dev", apiVersion := "v1beta1", plural := "brokers" }

/-- Modelled from the spec: the eventing trigger model. -/
def EventingTriggerModel : K8sModel :=
  { kind := "Trigger", apiGroup := "eventing.knative.dev", apiVersion := "v1beta1", plural := "triggers" }

/-- Modelled from the spec: the eventing subscription model. -/
def EventingSubscriptionModel : K8sModel :=
  { kind := "Subscription", apiGroup := "messaging.knative.dev", apiVersion := "v1beta1", plural := "subscriptions" }

/-- Modelled from the spec: the Knative serving service model. -/
def ServiceModel : K8sModel :=
  { kind := "Service", apiGroup := "serving.knative.dev", apiVersion := "v1", plural := "services" }

/-- Modelled from the spec: the deployment model. -/
def DeploymentModel : K8sModel :=
  { kind := "Deployment", apiGroup := "apps", apiVersion := "v1", plural := "deployments" }

/-- Modelled from the spec: the pod model. -/
def PodModel : K8sModel :=
  { kind := "Pod", apiGroup := "core", apiVersion := "v1", plural := "pods" }

/-- Modelled from the spec: `apiVersionForModel` renders a model's
group/version reference (external helper from the internal k8s module). -/
def apiVersionForModel (m : K8sModel) : String :=
  m.apiGroup ++ "/" ++ m.apiVersion

/-- Modelled from the spec: `referenceFor` maps a resource to its kind
reference tag (external helper; the tag is only used as display payload). -/
def referenceFor (r : K8sResourceKind) : String :=
  jsStr r.kind ++ "~" ++ jsStr r.apiVersion

/-- Modelled from the spec: the icon/asset resolver; purely cosmetic. -/
def getImageForIconCls (cls : String) : Option String :=
  some cls

/-- The resource snapshot (`TopologyDataResources`).  Categories the source
dereferences unguarded are plain lists; `deployments` and `ksroutes`, which
the source explicitly tests for presence, are `Option`; the
dynamically-discovered event-source/channel categories live in `dynamic`,
keyed by category name. -/
structure TopologyDataResources where
  configurations : List K8sResourceKind := []
  revisions : List K8sResourceKind := []
  ksservices : List K8sResourceKind := []
  deployments : Option (List K8sResourceKind) := none
  ksroutes : Option (List K8sResourceKind) := none
  replicasets : List K8sResourceKind := []
  pods : List K8sResourceKind := []
  buildconfigs : List K8sResourceKind := []
  builds : List K8sResourceKind := []
  services : List K8sResourceKind := []
  routes : List K8sResourceKind := []
  triggers : List K8sResourceKind := []
  eventingsubscription : List K8sResourceKind := []
  brokers : List K8sResourceKind := []
  dynamic : List (String × List K8sResourceKind) := []
  deriving Repr, DecidableEq

/-- Modelled from the spec: `findOwned(parent, candidates)` — the imported
`getOwnedResources` from `@console/shared` is not part of this fragment.
Returns all candidates whose `ownerReferences` includes `parent.uid`, in
candidate order. -/
def getOwnedResources (parent : K8sResourceKind) (candidates : List K8sResourceKind) : List K8sResourceKind :=
  candidates.filter fun c =>
    (c.metadata.ownerReferences.getD []).any fun o => decide (parent.metadata.uid = some o.uid)

/-- `getParentResource` (the Resource Resolver's `findParent`): the first
candidate whose `uid` appears among the uids of the resource's owner
references. -/
def getParentResource (resource : K8sResourceKind) (resources : List K8sResourceKind) : Option K8sResourceKind :=
  let parentUids := (resource.metadata.ownerReferences.getD []).map OwnerRef.uid
  (resources.filter fun c =>
    match c.metadata.uid with
    | some u => parentUids.contains u
    | none => false).head?

/-- `getParentResource` applied to a possibly-missing resource, as at the
call site `getParentResource(configuration, ...)` where `configuration`
may be `undefined` (lodash `_.get` then yields no owner uids). -/
def getParentResourceOpt (resource : Option K8sResourceKind) (resources : List K8sResourceKind) : Option K8sResourceKind :=
  match resource with
  | none => none
  | some r => getParentResource r resources

/-- `isInternalResource`: not the broker kind and carrying an
`ownerReferences` field (a present-but-empty list is truthy in JS). -/
def isInternalResource (resource : K8sResourceKind) : Bool :=
  decide (resource.kind ≠ some EventingBrokerModel.kind) && resource.metadata.ownerReferences.isSome

/-- Modelled from the spec: the active-application group filter
(`filterBasedOnActiveApplication` from the dev-console topology package,
outside this fragment): an empty active application keeps everything,
otherwise a resource is kept when its part-of label equals the active
application.  The element type is `Option` because the source passes the
possibly-missing parent service straight in. -/
def filterBasedOnActiveApplication (data : List (Option K8sResourceKind)) (application : String) : List (Option K8sResourceKind) :=
  data.filter fun dc =>
    if application = "" then true
    else decide (((dc.bind fun r => r.metadata.labels).getD []).lookup "app.kubernetes.io/part-of" = some application)

/-- `filterRevisionsByActiveApplication`: keep a revision when its
configuration's service lists it in `status.traffic` and that service
passes the active-application filter. -/
def filterRevisionsByActiveApplication (revisions : List K8sResourceKind) (resources : TopologyDataResources) (application : String) : List K8sResourceKind :=
  revisions.filter fun revision =>
    let configuration := getParentResource revision resources.configurations
    let service := getParentResourceOpt configuration resources.ksservices
    let hasTraffic :=
      match service with
      | none => false
      | some svc =>
        match svc.status with
        | none => false
        | some st => (st.traffic.getD []).any fun t => decide (t.revisionName = revision.metadata.name)
    let isServicePartofGroup := decide ((filterBasedOnActiveApplication [service] application).length > 0)
    hasTraffic && isServicePartofGroup

/-- `filterRevisionsBaseOnTrafficStatus`: `undefined` when the resource has
no `status.traffic`; otherwise the revisions named by the traffic entries,
in traffic order. -/
def filterRevisionsBaseOnTrafficStatus (resource : K8sResourceKind) (revisions : List K8sResourceKind) : Option (List K8sResourceKind) :=
  match resource.status.bind Status.traffic with
  | none => none
  | some traffic =>
    some (traffic.foldl (fun acc curr =>
      match revisions.find? (fun rev => decide (curr.revisionName = rev.metadata.name)) with
      | some el => acc ++ [el]
      | none => acc) [])

/-- Modelled from the spec: a build config with its builds attached, as the
rollup code reads it (`buildConfigs?.[0]?.builds?.[0]`); the collector
`getBuildConfigsForResource` lives in `@console/shared`. -/
structure BuildConfigItem where
  obj : K8sResourceKind
  builds : List K8sResourceKind := []
  deriving Repr, DecidableEq

/-- Modelled from the spec: a replica set with its pods attached, as
returned by the external `getReplicaSetsForResource`. -/
structure ReplicaSetItem where
  obj : K8sResourceKind
  pods : List K8sResourceKind := []
  deriving Repr, DecidableEq

/-- The `resources` facet the rollup attaches to a revision
(`{ pods, current }`). -/
structure RevResources where
  pods : List K8sResourceKind := []
  current : Option ReplicaSetItem := none
  deriving Repr, DecidableEq

/-- A revision as stored in an overview item: the revision resource,
optionally extended with its deployment pod data (the source monkey-patches
a `resources` key onto the revision object). -/
structure RevisionItem where
  res : K8sResourceKind
  resources : Option RevResources := none
  deriving Repr, DecidableEq

/-- The denormalized overview item (`TopologyOverviewItem`/`KnativeItem`).
JS objects with varying key sets are embedded as one structure of `Option`
fields; a key absent from the JS object is `none`. -/
structure TopologyOverviewItem where
  obj : Option K8sResourceKind := none
  alerts : Option (List String) := none
  buildConfigs : Option (List BuildConfigItem) := none
  current : Option ReplicaSetItem := none
  previous : Option ReplicaSetItem := none
  isRollingOut : Option Bool := none
  pods : Option (List K8sResourceKind) := none
  routes : Option (List K8sResourceKind) := none
  services : Option (List K8sResourceKind) := none
  associatedDeployment : Option K8sResourceKind := none
  configurations : Option (List K8sResourceKind) := none
  revisions : Option (List RevisionItem) := none
  ksroutes : Option (List K8sResourceKind) := none
  eventSources : Option (List K8sResourceKind) := none
  eventingsubscription : Option (List K8sResourceKind) := none
  ksservices : Option (List K8sResourceKind) := none
  triggers : Option (List K8sResourceKind) := none
  deployments : Option (List K8sResourceKind) := none
  pipelines : Option (List K8sResourceKind) := none
  pipelineRuns : Option (List K8sResourceKind) := none
  deriving Repr, DecidableEq

/-- JS object spread `{...a, ...b}` on overview items: a field of `b` that
is present wins, an absent one keeps `a`. -/
def mergeOverview (a b : TopologyOverviewItem) : TopologyOverviewItem :=
  { obj := b.obj <|> a.obj
    alerts := b.alerts <|> a.alerts
    buildConfigs := b.buildConfigs <|> a.buildConfigs
    current := b.current <|> a.current
    previous := b.previous <|> a.previous
    isRollingOut := b.isRollingOut <|> a.isRollingOut
    pods := b.pods <|> a.pods
    routes := b.routes <|> a.routes
    services := b.services <|> a.services
    associatedDeployment := b.associatedDeployment <|> a.associatedDeployment
    configurations := b.configurations <|> a.configurations
    revisions := b.revisions <|> a.revisions
    ksroutes := b.ksroutes <|> a.ksroutes
    eventSources := b.eventSources <|> a.eventSources
    eventingsubscription := b.eventingsubscription <|> a.eventingsubscription
    ksservices := b.ksservices <|> a.ksservices
    triggers := b.triggers <|> a.triggers
    deployments := b.deployments <|> a.deployments
    pipelines := b.pipelines <|> a.pipelines
    pipelineRuns := b.pipelineRuns <|> a.pipelineRuns }

/-- A pluggable enricher (`KnativeUtil`): a partial overview item, or
`undefined`. -/
def KnativeUtil : Type :=
  K8sResourceKind → TopologyDataResources → Option TopologyOverviewItem

/-- `utils.reduce((acc, util) => ({...acc, ...util(resource, resources)}), item)`
guarded by `if (utils)`. -/
def applyUtils (utils : Option (List KnativeUtil)) (resource : K8sResourceKind) (resources : TopologyDataResources) (item : TopologyOverviewItem) : TopologyOverviewItem :=
  match utils with
  | none => item
  | some us =>
    us.foldl (fun acc util =>
      match util resource resources with
      | none => acc
      | some part => mergeOverview acc part) item

/-- Modelled from the spec: `getReplicaSetsForResource` (from the
dev-console package): the replica sets owned by the deployment, each with
its owned pods attached, in snapshot order (head is `current`, the next
one `previous`). -/
def getReplicaSetsForResource (dep : K8sResourceKind) (resources : TopologyDataResources) : List ReplicaSetItem :=
  (getOwnedResources dep resources.replicasets).map fun rs =>
    { obj := rs, pods := getOwnedResources rs resources.pods }

/-- Modelled from the spec: `getBuildConfigsForResource` (from
`@console/shared`): the build configs related to the resource — embedded as
those owned by it — each with its owned builds attached. -/
def getBuildConfigsForResource (resource : K8sResourceKind) (resources : TopologyDataResources) : List BuildConfigItem :=
  (getOwnedResources resource resources.buildconfigs).map fun bc =>
    { obj := bc, builds := getOwnedResources bc resources.builds }

/-- Modelled from the spec: `getServicesForResource`: the services related
to the deployment — embedded as those owned by it. -/
def getServicesForResource (dep : K8sResourceKind) (resources : TopologyDataResources) : List K8sResourceKind :=
  getOwnedResources dep resources.services

/-- Modelled from the spec: `getRoutesForServices`: the routes owned by any
of the given services. -/
def getRoutesForServices (services : List K8sResourceKind) (resources : TopologyDataResources) : List K8sResourceKind :=
  resources.routes.filter fun rt =>
    (rt.metadata.ownerReferences.getD []).any fun o =>
      services.any fun s => decide (s.metadata.uid = some o.uid)

/-- Modelled from the spec: the paused-resource alert. -/
def getResourcePausedAlert (dep : K8sResourceKind) : List String :=
  if (dep.spec.bind Spec.paused) = some true then ["ResourcePaused"] else []

/-- Modelled from the spec: the build-failure alerts.  The build status
fields they inspect lie outside this fragment and no claim depends on
them, so the alert set is embedded as empty. -/
def getBuildAlerts (_buildConfigs : List BuildConfigItem) : List String :=
  []

/-- The accumulator of the revision/deployment reduce in
`getKnativeServiceData` (`{ revisionsDep: [], allPods: [] }`). -/
structure RevisionsDeploymentData where
  revisionsDep : List RevisionItem := []
  allPods : List K8sResourceKind := []
  deriving Repr, DecidableEq

/-- One step of the revision/deployment reduce in `getKnativeServiceData`:
attach the revision's own deployment/replica-set/pod data when present. -/
def knRevisionStep (resources : TopologyDataResources) (acc : RevisionsDeploymentData) (revision : K8sResourceKind) : RevisionsDeploymentData :=
  match resources.deployments with
  | none => { acc with revisionsDep := acc.revisionsDep ++ [{ res := revision }] }
  | some deps =>
    match getOwnedResources revision deps with
    | [] => { acc with revisionsDep := acc.revisionsDep ++ [{ res := revision }] }
    | d :: _ =>
      let depObj : K8sResourceKind :=
        { d with apiVersion := some (apiVersionForModel DeploymentModel), kind := some DeploymentModel.kind }
      let replicaSets := getReplicaSetsForResource depObj resources
      let current := replicaSets.head?
      let previous := replicaSets[1]?
      let pods := ((current.map ReplicaSetItem.pods).getD []) ++ ((previous.map ReplicaSetItem.pods).getD [])
      { revisionsDep := acc.revisionsDep ++ [{ res := revision, resources := some { pods := pods, current := current } }]
        allPods := acc.allPods ++ pods }

/-- `getKnativeServiceData`: owned configurations, the owned revisions of
the FIRST configuration (with per-revision deployment data), owned routes,
build configs and pods; then the enrichers. -/
def getKnativeServiceData (resource : K8sResourceKind) (resources : TopologyDataResources) (utils : Option (List KnativeUtil)) : TopologyOverviewItem :=
  let configurations := getOwnedResources resource resources.configurations
  let revisions : Option (List K8sResourceKind) :=
    match configurations with
    | [] => none
    | c :: _ => some (getOwnedResources c resources.revisions)
  let revisionsDeploymentData := (revisions.getD []).foldl (knRevisionStep resources) {}
  let ksroutes := resources.ksroutes.map fun l => getOwnedResources resource l
  let buildConfigs := getBuildConfigsForResource resource resources
  let overviewItem : TopologyOverviewItem :=
    { configurations := some configurations
      revisions := some revisionsDeploymentData.revisionsDep
      ksroutes := ksroutes
      buildConfigs := some buildConfigs
      pods := some revisionsDeploymentData.allPods }
  applyUtils utils resource resources overviewItem

/-- `createKnativeDeploymentItems` (the Rollup Builder): the plain-workload
branch when an owned deployment exists, the Knative branch via
`getKnativeServiceData` otherwise. -/
def createKnativeDeploymentItems (resource : K8sResourceKind) (resources : TopologyDataResources) (utils : Option (List KnativeUtil)) : TopologyOverviewItem :=
  match getOwnedResources resource (resources.deployments.getD []) with
  | d :: _ =>
    let depObj : K8sResourceKind :=
      { d with apiVersion := some (apiVersionForModel DeploymentModel), kind := some DeploymentModel.kind }
    let replicaSets := getReplicaSetsForResource depObj resources
    let current := replicaSets.head?
    let previous := replicaSets[1]?
    let isRollingOut := current.isSome && previous.isSome
    let buildConfigs := getBuildConfigsForResource depObj resources
    let services := getServicesForResource depObj resources
    let routes := getRoutesForServices services resources
    let alerts := getResourcePausedAlert depObj ++ getBuildAlerts buildConfigs
    let overviewItems : TopologyOverviewItem :=
      { obj := some resource
        alerts := some alerts
        buildConfigs := some buildConfigs
        current := current
        isRollingOut := some isRollingOut
        previous := previous
        pods := some (((current.map ReplicaSetItem.pods).getD []) ++ ((previous.map ReplicaSetItem.pods).getD []))
        routes := some routes
        services := some services
        associatedDeployment := some depObj }
    applyUtils utils resource resources overviewItems
  | [] =>
    let knResources := getKnativeServiceData resource resources utils
    mergeOverview
      { obj := some resource, buildConfigs := some [], routes := some [], services := some [] }
      knResources

/-- `getKnativeDynamicResources`: concatenation of the dynamic categories,
missing ones contributing nothing. -/
def getKnativeDynamicResources (resources : TopologyDataResources) (dynamicProps : List String) : List K8sResourceKind :=
  dynamicProps.foldl (fun acc p => acc ++ ((resources.dynamic.lookup p).getD [])) []

/-- Node shapes from the external topology library. -/
inductive NodeShape where
  | rect
  | circle
  deriving Repr, DecidableEq

/-- Sizing/visibility hints of a node (`getKnNodeModelProps` results). -/
structure NodeModelProps where
  width : Option Rat := none
  height : Option Rat := none
  visible : Option Bool := none
  collapsed : Option Bool := none
  group : Option Bool := none
  shape : Option NodeShape := none
  padding : Option Rat := none
  deriving Repr, DecidableEq

/-- Modelled from the spec: standard node width (external constant). -/
def NODE_WIDTH : Rat := 104

/-- Modelled from the spec: standard node height (external constant). -/
def NODE_HEIGHT : Rat := 104

/-- Modelled from the spec: standard node padding (external constant). -/
def NODE_PADDING : Rat := 20

/-- Modelled from the spec: Knative group node width (external constant). -/
def KNATIVE_GROUP_NODE_WIDTH : Rat := 300

/-- Modelled from the spec: Knative group node height (external constant). -/
def KNATIVE_GROUP_NODE_HEIGHT : Rat := 100

/-- Modelled from the spec: Knative group node padding (external constant). -/
def KNATIVE_GROUP_NODE_PADDING : Rat := 32

/-- Modelled from the spec: the generic-workload fallback entry of the
styling table (`WorkloadModelProps` from the dev-console package). -/
def WorkloadModelProps : NodeModelProps :=
  { width := some NODE_WIDTH, height := some NODE_HEIGHT, visible := some true, padding := some NODE_PADDING }

/-- `getKnNodeModelProps`: the fixed styling lookup table keyed by node
type, with the generic-workload fallback. -/
def getKnNodeModelProps (type : String) : NodeModelProps :=
  if type = NodeType.EventSource then
    { width := some NODE_WIDTH, height := some NODE_HEIGHT, visible := some true, padding := some NODE_PADDING }
  else if type = NodeType.KnService then
    { width := some KNATIVE_GROUP_NODE_WIDTH, height := some KNATIVE_GROUP_NODE_HEIGHT,
      visible := some true, collapsed := some false, group := some true,
      shape := some NodeShape.rect, padding := some KNATIVE_GROUP_NODE_PADDING }
  else if type = NodeType.PubSub then
    { width := some NODE_WIDTH, height := some (NODE_HEIGHT / 2), visible := some true,
      shape := some NodeShape.rect, padding := some NODE_PADDING }
  else if type = NodeType.SinkUri then
    { width := some (NODE_WIDTH * (3 / 4)), height := some (NODE_HEIGHT * (3 / 4)), visible := some true,
      shape := some NodeShape.circle, padding := some NODE_PADDING }
  else WorkloadModelProps

/-- The `connectedPipeline` display payload of a service node. -/
structure ConnectedPipeline where
  pipeline : Option K8sResourceKind := none
  pipelineRuns : List K8sResourceKind := []
  deriving Repr, DecidableEq

/-- The display/semantic payload (`data.data`) of a topology data object. -/
structure NodeData where
  url : Option String := none
  kind : Option String := none
  editURL : Option String := none
  vcsURI : Option String := none
  image : Option String := none
  isKnativeResource : Option Bool := none
  connectedPipeline : Option ConnectedPipeline := none
  build : Option K8sResourceKind := none
  sinkUri : Option String := none
  deriving Repr, DecidableEq

/-- A `TopologyDataObject`. -/
structure TopologyDataObject where
  id : Option String := none
  name : Option String := none
  type : String
  resource : Option K8sResourceKind := none
  resources : Option TopologyOverviewItem := none
  data : NodeData := {}
  deriving Repr, DecidableEq

/-- A graph node (`NodeModel`). -/
structure NodeModel where
  id : Option String := none
  type : String
  resource : Option K8sResourceKind := none
  data : Option TopologyDataObject := none
  children : List (Option String) := []
  props : NodeModelProps := {}
  deriving Repr, DecidableEq

/-- Edge payload: `percent` for traffic edges, `resources.obj` and
`resources.connections` (flattened) for pub/sub edges. -/
structure EdgeData where
  percent : Option Int := none
  resourcesObj : Option K8sResourceKind := none
  connections : Option (List K8sResourceKind) := none
  deriving Repr, DecidableEq

/-- A graph edge (`EdgeModel`). -/
structure EdgeModel where
  id : String
  type : String
  source : Option String := none
  target : Option String := none
  data : Option EdgeData := none
  deriving Repr, DecidableEq

/-- The graph model (`Model`). -/
structure Model where
  nodes : List NodeModel := []
  edges : List EdgeModel := []
  deriving Repr, DecidableEq

/-- Modelled from the spec: the base node constructor
(`getTopologyNodeItem` from the dev-console package): id is the resource
uid, with the given type, resource, display data, styling props and
children ids. -/
def getTopologyNodeItem (resource : K8sResourceKind) (type : String) (data : Option TopologyDataObject) (props : NodeModelProps) (children : List (Option String) := []) : NodeModel :=
  { id := resource.metadata.uid, type := type, resource := some resource,
    data := data, children := children, props := props }

/-- Modelled from the spec: the generic workload display data
(`createTopologyNodeData` from the dev-console package): id/name from
metadata, the overview item as `resources`, and a display payload carrying
the kind tag and icon.  A generic node embeds no sink-uri field. -/
def createTopologyNodeData (resource : K8sResourceKind) (item : TopologyOverviewItem) (type : String) (icon : Option String) : TopologyDataObject :=
  { id := resource.metadata.uid, name := resource.metadata.name, type := type,
    resource := some resource, resources := some item,
    data := { kind := some (referenceFor resource), image := icon, isKnativeResource := some true } }

/-- Modelled from the spec: the logical-application group of a resource
(`getTopologyGroupItems` from the dev-console package), derived from the
part-of label; `none` when the resource carries no application label. -/
def getTopologyGroupItems (res : K8sResourceKind) : Option NodeModel :=
  match (res.metadata.labels.getD []).lookup "app.kubernetes.io/part-of" with
  | none => none
  | some app =>
    some { id := some ("group:" ++ app), type := "part-of-group",
           children := [res.metadata.uid], props := WorkloadModelProps }

/-- Modelled from the spec: merge a group into the running node list
(`mergeGroup` from the dev-console package): no group means no change; a
group whose id already appears has its children merged into the existing
node; otherwise the group node is appended. -/
def mergeGroup (newGroup : Option NodeModel) (nodes : List NodeModel) : List NodeModel :=
  match newGroup with
  | none => nodes
  | some g =>
    if nodes.any (fun n => decide (n.id = g.id)) then
      nodes.map fun n =>
        if n.id = g.id then
          { n with children := n.children ++ g.children.filter (fun c => decide (c ∉ n.children)) }
        else n
    else nodes ++ [g]

/-- `_.maxBy(traffic, 'percent')`: entries without a `percent` are skipped;
a later entry replaces the champion only when strictly greater. -/
def maxByPercent (l : List TrafficEntry) : Option TrafficEntry :=
  (l.foldl (fun acc e =>
    match e.percent with
    | none => acc
    | some p =>
      match acc with
      | none => some (e, p)
      | some (_, m) => if p > m then some (e, p) else acc) none).map Prod.fst

/-- `getKnativeServiceRoutesURL`: the url of the traffic entry with the
greatest percent, falling back to `status.url`. -/
def getKnativeServiceRoutesURL (ksvc : K8sResourceKind) : Option String :=
  match ksvc.status with
  | none => some ""
  | some st => jsOr ((maxByPercent (st.traffic.getD [])).bind TrafficEntry.url) st.url

/-- `createTopologyServiceNodeData`. -/
def createTopologyServiceNodeData (resource : K8sResourceKind) (svcRes : TopologyOverviewItem) (type : String) : TopologyDataObject :=
  let pipelines := svcRes.pipelines.getD []
  let pipelineRuns := svcRes.pipelineRuns.getD []
  let knativeSvc := svcRes.obj
  let uid := knativeSvc.bind fun k => k.metadata.uid
  let labels := (knativeSvc.bind fun k => k.metadata.labels).getD []
  let annotations := (knativeSvc.bind fun k => k.metadata.annotations).getD []
  { id := uid
    name := jsOr (knativeSvc.bind fun k => k.metadata.name) (labels.lookup "app.kubernetes.io/instance")
    type := type
    resource := some resource
    resources := some svcRes
    data :=
      { url := (knativeSvc.map getKnativeServiceRoutesURL).getD none
        kind := some (referenceFor (knativeSvc.getD {}))
        editURL := annotations.lookup "app.openshift.io/edit-url"
        vcsURI := annotations.lookup "app.openshift.io/vcs-uri"
        isKnativeResource := some true
        connectedPipeline := some { pipeline := pipelines.head?, pipelineRuns := pipelineRuns }
        build := ((svcRes.buildConfigs.getD []).head?).bind fun bc => bc.builds.head? } }

/-- `createTopologyPubSubNodeData`. -/
def createTopologyPubSubNodeData (resource : K8sResourceKind) (res : TopologyOverviewItem) (type : String) : TopologyDataObject :=
  let obj := res.obj.getD {}
  { id := obj.metadata.uid
    name := jsOr obj.metadata.name ((obj.metadata.labels.getD []).lookup "app.kubernetes.io/instance")
    type := type
    resource := some resource
    resources := some res
    data := { kind := some (referenceFor obj), isKnativeResource := some true } }

/-- `getKnativeTopologyNodeItems` (the Node Factory): a Knative-service
node synthesizes one child node per revision surviving the traffic filter
and records their uids as `children`; every other type yields the single
node. -/
def getKnativeTopologyNodeItems (resource : K8sResourceKind) (type : String) (data : TopologyDataObject) (resources : Option TopologyDataResources) : List NodeModel :=
  match resources with
  | some rs =>
    if type = NodeType.KnService then
      let configurations := getOwnedResources resource rs.configurations
      let configUidData := configurations.head?.bind fun c => c.metadata.uid
      let childData := rs.revisions.filter fun rev =>
        (rev.metadata.ownerReferences.getD []).any fun o => decide (some o.uid = configUidData)
      let trafficRevs := (filterRevisionsBaseOnTrafficStatus resource childData).getD []
      let children := trafficRevs.map fun c => c.metadata.uid
      let revNodes := trafficRevs.map fun c =>
        getTopologyNodeItem c NodeType.Revision none (getKnNodeModelProps NodeType.Revision)
      revNodes ++ [getTopologyNodeItem resource type (some data) (getKnNodeModelProps type) children]
    else [getTopologyNodeItem resource type (some data) (getKnNodeModelProps type)]
  | none => [getTopologyNodeItem resource type (some data) (getKnNodeModelProps type)]

/-- `getSinkUriTopologyNodeItems`: the synthetic sink-uri node. -/
def getSinkUriTopologyNodeItems (type : String) (id : String) (data : TopologyDataObject) : List NodeModel :=
  [{ id := some id, type := type, resource := data.resource, data := some data,
     children := [], props := getKnNodeModelProps type }]

/-- The `spec.sink.uri` of an event source (`res.spec?.sink?.uri`). -/
def evSinkUri (r : K8sResourceKind) : Option String :=
  (r.spec.bind Spec.sink).bind Sink.uri

/-- `getSinkUriTopologyEdgeItems`: one edge from the event source to the
sink-uri node, provided the source has a sink uri and a uid. -/
def getSinkUriTopologyEdgeItems (resource : K8sResourceKind) (targetUid : String) : List EdgeModel :=
  let uid := resource.metadata.uid
  let sinkUri := evSinkUri resource
  if strTruthy sinkUri && strTruthy uid then
    [{ id := jsStr uid ++ "_" ++ targetUid, type := EdgeType.EventSource,
       source := uid, target := some targetUid }]
  else []

/-- `getSinkTargetUid`: scan the nodes for the first whose embedded
`data.sinkUri` equals the given uri; `""` when there is none (or the found
node has no id). -/
def getSinkTargetUid (nodeData : List NodeModel) (sinkUri : Option String) : String :=
  match nodeData.find? (fun nd => decide (sinkUri = nd.data.bind fun d => d.data.sinkUri)) with
  | none => ""
  | some nd => nd.id.getD ""

/-- `getEventSourcesData`: the dynamic event sources whose
`spec.sink.uri || ""` equals the given uri. -/
def getEventSourcesData (esRefs : List String) (sinkUri : String) (resources : TopologyDataResources) : List K8sResourceKind :=
  (getKnativeDynamicResources resources esRefs).filter fun evSrc =>
    decide (sinkUri = (((evSrc.spec.bind Spec.sink).bind Sink.uri).getD ""))

/-- `getEventTopologyEdgeItems`: edges from an event source to every
candidate whose name equals the sink target's name (`spec.sink.ref`,
falling back to `spec.sink` itself, whose `name` is then absent). -/
def getEventTopologyEdgeItems (resource : K8sResourceKind) (data : List K8sResourceKind) : List EdgeModel :=
  let uid := resource.metadata.uid
  let sinkTarget : Option (Option String) :=
    match resource.spec.bind Spec.sink with
    | none => none
    | some s =>
      match s.ref with
      | some r => some r.name
      | none => some none
  match sinkTarget with
  | none => []
  | some tname =>
    data.foldl (fun edges res2 =>
      if res2.metadata.name = tname then
        edges ++ [{ id := jsStr uid ++ "_" ++ jsStr res2.metadata.uid, type := EdgeType.EventSource,
                    source := uid, target := res2.metadata.uid }]
      else edges) []

/-- `getTriggerTopologyEdgeItems`: broker → service edges through the
triggers naming the broker, carrying the trigger as payload. -/
def getTriggerTopologyEdgeItems (broker : K8sResourceKind) (resources : TopologyDataResources) : List EdgeModel :=
  let uid := broker.metadata.uid
  let name := broker.metadata.name
  resources.triggers.foldl (fun edges trigger =>
    let brokerName := trigger.spec.bind Spec.broker
    let connectedService := ((trigger.spec.bind Spec.subscriber).bind Sink.ref).bind SinkRef.name
    if name = brokerName then
      match resources.ksservices.find? (fun k => decide (k.metadata.name = connectedService)) with
      | some knativeService =>
        edges ++ [{ id := jsStr uid ++ "_" ++ jsStr knativeService.metadata.uid,
                    type := EdgeType.EventPubSubLink,
                    source := uid, target := knativeService.metadata.uid,
                    data := some { resourcesObj := some trigger,
                                   connections := some [broker, knativeService] } }]
      | none => edges
    else edges) []

/-- `getSubscriptionTopologyEdgeItems`: channel → service edges through
the subscriptions naming the channel. -/
def getSubscriptionTopologyEdgeItems (resource : K8sResourceKind) (resources : TopologyDataResources) : List EdgeModel :=
  let uid := resource.metadata.uid
  let name := resource.metadata.name
  resources.eventingsubscription.foldl (fun edges subRes =>
    let channelData := subRes.spec.bind Spec.channel
    if name = channelData.bind SinkRef.name then
      match (subRes.spec.bind Spec.subscriber).bind Sink.ref with
      | none => edges
      | some svcData =>
        edges ++ resources.ksservices.foldl (fun es res2 =>
          if res2.metadata.name = svcData.name then
            es ++ [{ id := jsStr uid ++ "_" ++ jsStr res2.metadata.uid,
                     type := EdgeType.EventPubSubLink,
                     source := uid, target := res2.metadata.uid,
                     data := some { resourcesObj := some subRes,
                                    connections := some [resource, res2] } }]
          else es) []
    else edges) []

/-- In-place update of the element at an index (the JS
`edges[revisionIndex].data.percent += ...` mutation). -/
def updateAt : List α → Nat → (α → α) → List α
  | [], _, _ => []
  | a :: l, 0, f => f a :: l
  | a :: l, n + 1, f => a :: updateAt l n f

/-- lodash `_.findIndex`: the index of the first match (`-1`, i.e. the
guarded branch, becomes `none`). -/
def findIndexOpt (p : α → Bool) : List α → Option Nat
  | [] => none
  | a :: l => if p a then some 0 else (findIndexOpt p l).map (· + 1)

/-- Accumulate a traffic percent onto an edge's payload (`+=`). -/
def addPercent (p : Option Int) (e : EdgeModel) : EdgeModel :=
  { e with data := e.data.map fun ed => { ed with percent := jsAdd ed.percent p } }

/-- The revision uid a traffic entry resolves to: `_.find` the revision by
`revisionName`, then `_.get` its `metadata.uid`. -/
def resolveRevUid (data : List K8sResourceKind) (t : TrafficEntry) : Option String :=
  (data.find? fun rev => decide (rev.metadata.name = t.revisionName)).bind fun r => r.metadata.uid

/-- One step of `getTrafficTopologyEdgeItems`: resolve the traffic entry's
revision by name; when its uid is truthy, either merge the percent into
the existing edge of the same id or push a fresh edge. -/
def trafficStep (uid : Option String) (data : List K8sResourceKind) (edges : List EdgeModel) (res : TrafficEntry) : List EdgeModel :=
  let trafficPercent := res.percent
  let resUid := resolveRevUid data res
  if strTruthy resUid then
    let eid := jsStr uid ++ "_" ++ jsStr resUid
    match findIndexOpt (fun e => decide (e.id = eid)) edges with
    | some i => updateAt edges i (addPercent trafficPercent)
    | none =>
      edges ++ [{ id := eid, type := EdgeType.Traffic, source := uid, target := resUid,
                  data := some { percent := trafficPercent } }]
  else edges

/-- `getTrafficTopologyEdgeItems` (the Edge Factory's traffic rule). -/
def getTrafficTopologyEdgeItems (resource : K8sResourceKind) (data : List K8sResourceKind) : List EdgeModel :=
  let uid := resource.metadata.uid
  let trafficSvc := (resource.status.bind Status.traffic).getD []
  trafficSvc.foldl (trafficStep uid data) []

/-- The UTF-8 bytes of a character, as plain numbers. -/
def utf8Bytes (c : Char) : List Nat :=
  let n := c.toNat
  if n < 128 then [n]
  else if n < 2048 then [192 + n / 64, 128 + n % 64]
  else if n < 65536 then [224 + n / 4096, 128 + (n / 64) % 64, 128 + n % 64]
  else [240 + n / 262144, 128 + (n / 4096) % 64, 128 + (n / 64) % 64, 128 + n % 64]

/-- An uppercase hexadecimal digit. -/
def hexDigit (n : Nat) : Char :=
  if n < 10 then Char.ofNat (48 + n) else Char.ofNat (55 + n)

/-- `%HH` percent-escape of one byte. -/
def percentByte (n : Nat) : String :=
  String.mk [Char.ofNat 37, hexDigit (n / 16), hexDigit (n % 16)]

/-- The characters `encodeURIComponent` leaves unescaped:
letters, digits and `- _ . ! ~ * ( )` plus the apostrophe (code 39). -/
def isUnreservedURIChar (c : Char) : Bool :=
  (65 ≤ c.toNat && c.toNat ≤ 90) || (97 ≤ c.toNat && c.toNat ≤ 122) ||
  (48 ≤ c.toNat && c.toNat ≤ 57) ||
  c.toNat == 45 || c.toNat == 95 || c.toNat == 46 || c.toNat == 33 ||
  c.toNat == 126 || c.toNat == 42 || c.toNat == 39 || c.toNat == 40 || c.toNat == 41

/-- `%HH`-escape a byte list. -/
def percentBytes : List Nat → String
  | [] => ""
  | b :: bs => percentByte b ++ percentBytes bs

/-- Percent-encode one character. -/
def encodeURIChar (c : Char) : String :=
  if isUnreservedURIChar c then String.singleton c
  else percentBytes (utf8Bytes c)

/-- Percent-encode a character list. -/
def encodeURIChars : List Char → String
  | [] => ""
  | c :: cs => encodeURIChar c ++ encodeURIChars cs

/-- The JS builtin `encodeURIComponent` (RFC 3986 percent-encoding with
the `encodeURIComponent` unreserved set). -/
def encodeURIComponent (s : String) : String :=
  encodeURIChars s.data

/-- Accumulator of the trigger reduce inside `createPubSubDataItems`
(`{ ksservices: [], triggers: [], pods: [], deployments: [] }`). -/
structure TriggersData where
  ksservices : List K8sResourceKind := []
  triggers : List K8sResourceKind := []
  deriving Repr, DecidableEq

/-- `createPubSubDataItems`: the pub/sub rollup — event sources sinking
into the resource, subscriptions/services wired through the subscriber
lists, and, for brokers, the triggers/services/pods/deployments labelled
for the broker. -/
def createPubSubDataItems (esRefs : List String) (resource : K8sResourceKind) (resources : TopologyDataResources) : TopologyOverviewItem :=
  let resKind := resource.kind
  let name := resource.metadata.name
  let spec := resource.spec
  let subscriptionData := resources.eventingsubscription
  let triggerList := resources.triggers
  let eventSourceProps := esRefs
  let eventSources := (getKnativeDynamicResources resources eventSourceProps).filter fun evSrc =>
    let sinkRes := (evSrc.spec.bind Spec.sink).bind Sink.ref
    decide (resKind = sinkRes.bind SinkRef.kind) && decide (name = sinkRes.bind SinkRef.name)
  let channelSubsData := subscriptionData.foldl (fun acc subs =>
    let subUid := subs.metadata.uid
    let subscribers :=
      ((spec.bind Spec.subscribable).bind Subscribable.subscribers) <|> (spec.bind Spec.subscribers)
    let isSubscribableData := (subscribers.getD []).findIdx? fun sub => decide (sub.uid = subUid)
    match isSubscribableData with
    | none => acc
    | some _ =>
      let subscriptionSvc := (subs.spec.bind Spec.subscriber).bind Sink.ref
      let matchedSvcs := resources.ksservices.filter fun svc =>
        decide (svc.kind = subscriptionSvc.bind SinkRef.kind) &&
        decide (svc.metadata.name = subscriptionSvc.bind SinkRef.name)
      (acc.1 ++ [subs], acc.2 ++ matchedSvcs))
    (([] : List K8sResourceKind), ([] : List K8sResourceKind))
  let base : TopologyOverviewItem :=
    { obj := some resource, buildConfigs := some [], routes := some [], services := some []
      eventSources := some eventSources
      eventingsubscription := some channelSubsData.1
      ksservices := some channelSubsData.2 }
  if resKind = some EventingBrokerModel.kind then
    let tData := triggerList.foldl (fun tData trigger =>
      let brokerName := trigger.spec.bind Spec.broker
      let subRef := (trigger.spec.bind Spec.subscriber).bind Sink.ref
      let knService := resources.ksservices.find? fun s =>
        decide (s.metadata.name = subRef.bind SinkRef.name) &&
        decide (s.kind = subRef.bind SinkRef.kind)
      if name = brokerName then
        { triggers := tData.triggers ++ [trigger]
          ksservices :=
            match knService with
            | some k => tData.ksservices ++ [k]
            | none => tData.ksservices }
      else tData) ({} : TriggersData)
    let podsData := (resources.pods.filter fun p =>
      decide ((p.metadata.labels.getD []).lookup "eventing.knative.dev/broker" = name)).map
        fun p => { p with kind := some PodModel.kind }
    let deploymentsData := resources.deployments.map fun l =>
      (l.filter fun p =>
        decide ((p.metadata.labels.getD []).lookup "eventing.knative.dev/broker" = name)).map
          fun p => { p with kind := some DeploymentModel.kind }
    { base with
      ksservices := some tData.ksservices
      triggers := some tData.triggers
      pods := some podsData
      deployments := deploymentsData }
  else base

/-- The sink-uri block of the event-source case (`// form node data for
sink uri`): look the uri up among the nodes built so far; the first event
source with a given uri creates the synthetic node, later ones only add
their edge. -/
def sinkUriPart (esRefs : List String) (resources : TopologyDataResources) (res : K8sResourceKind) (data : TopologyDataObject) (nodes1 : List NodeModel) (edges1 : List EdgeModel) : List NodeModel × List EdgeModel :=
  let sinkUri := evSinkUri res
  let sinkTargetUid0 := getSinkTargetUid nodes1 sinkUri
  if strTruthy sinkUri then
    if sinkTargetUid0 = "" then
      let u0 := sinkUri.getD ""
      let sinkTargetUid := encodeURIComponent u0
      let eventSourcesData := getEventSourcesData esRefs u0 resources
      let nsValue := (((data.resources.bind TopologyOverviewItem.obj).bind fun o => o.metadata.ns)).getD ""
      let sinkUriObj : K8sResourceKind :=
        { metadata := { uid := some sinkTargetUid, ns := some nsValue }
          spec := some { sinkUri := some u0 }
          type := some { nodeType := some NodeType.SinkUri } }
      let sinkData : TopologyDataObject :=
        { id := some sinkTargetUid, name := some "URI", type := NodeType.SinkUri
          resources := some { (data.resources.getD {}) with obj := some sinkUriObj, eventSources := some eventSourcesData }
          data := { data.data with sinkUri := some u0 }
          resource := some sinkUriObj }
      (nodes1 ++ getSinkUriTopologyNodeItems NodeType.SinkUri sinkTargetUid sinkData,
       edges1 ++ getSinkUriTopologyEdgeItems res sinkTargetUid)
    else (nodes1, edges1 ++ getSinkUriTopologyEdgeItems res sinkTargetUid0)
  else (nodes1, edges1)

/-- The event-source case of the Graph Assembler's per-resource switch:
node + service edges, the lazily-created sink-uri node and its edge,
channel and broker edges, and the group merge. -/
def transformEventSourceCase (esRefs chRefs : List String) (resources : TopologyDataResources) (knDataModel : Model) (res : K8sResourceKind) (type : String) (item : TopologyOverviewItem) : Model :=
  let icon := getImageForIconCls "icon-openshift"
  let data := createTopologyNodeData res item type icon
  let nodes1 := knDataModel.nodes ++ getKnativeTopologyNodeItems res type data (some resources)
  let edges1 := knDataModel.edges ++ getEventTopologyEdgeItems res resources.ksservices
  let step2 := sinkUriPart esRefs resources res data nodes1 edges1
  let edges3 :=
    if isInternalResource res then step2.2
    else chRefs.foldl (fun es currentProp =>
      match resources.dynamic.lookup currentProp with
      | none => es
      | some l => es ++ getEventTopologyEdgeItems res l) step2.2
  let edges4 := edges3 ++ getEventTopologyEdgeItems res resources.brokers
  let nodes3 := mergeGroup (getTopologyGroupItems res) step2.1
  { nodes := nodes3, edges := edges4 }

/-- The Knative-service case of the Graph Assembler's per-resource switch. -/
def transformKnServiceCase (resources : TopologyDataResources) (knDataModel : Model) (res : K8sResourceKind) (type : String) (item : TopologyOverviewItem) : Model :=
  let data := createTopologyServiceNodeData res item type
  let nodes1 := knDataModel.nodes ++ getKnativeTopologyNodeItems res type data (some resources)
  let edges1 := knDataModel.edges ++ getTrafficTopologyEdgeItems res resources.revisions
  { nodes := mergeGroup (getTopologyGroupItems res) nodes1, edges := edges1 }

/-- The pub/sub case of the Graph Assembler's per-resource switch:
internal resources are skipped entirely. -/
def transformPubSubCase (esRefs : List String) (resources : TopologyDataResources) (knDataModel : Model) (res : K8sResourceKind) (type : String) : Model :=
  if isInternalResource res then knDataModel
  else
    let itemData := createPubSubDataItems esRefs res resources
    let data := createTopologyPubSubNodeData res itemData type
    let nodes1 := knDataModel.nodes ++ getKnativeTopologyNodeItems res type data (some resources)
    let edges1 :=
      if res.kind = some EventingBrokerModel.kind then
        knDataModel.edges ++ getTriggerTopologyEdgeItems res resources
      else
        knDataModel.edges ++ getSubscriptionTopologyEdgeItems res resources
    { nodes := mergeGroup (getTopologyGroupItems res) nodes1, edges := edges1 }

/-- One resource of the Graph Assembler's traversal: build the overview
item, then dispatch on the node type. -/
def transformStep (esRefs chRefs : List String) (type : String) (resources : TopologyDataResources) (utils : Option (List KnativeUtil)) (knDataModel : Model) (res : K8sResourceKind) : Model :=
  let item := createKnativeDeploymentItems res resources utils
  if type = NodeType.EventSource then
    transformEventSourceCase esRefs chRefs resources knDataModel res type item
  else if type = NodeType.KnService then
    transformKnServiceCase resources knDataModel res type item
  else if type = NodeType.PubSub then
    transformPubSubCase esRefs resources knDataModel res type
  else knDataModel

/-- `transformKnNodeData` (the Graph Assembler).  The dynamically
registered event-source and channel category names
(`getDynamicEventSourcesModelRefs` / `getDynamicChannelModelRefs`,
external registries) are passed in explicitly as `esRefs` / `chRefs`. -/
def transformKnNodeData (esRefs chRefs : List String) (knResourcesData : List K8sResourceKind) (type : String) (resources : TopologyDataResources) (utils : Option (List KnativeUtil)) : Model :=
  knResourcesData.foldl (transformStep esRefs chRefs type resources utils) {}

/-- `createKnativeEventSourceSink`, embedded as the update request it
issues: `none` is the rejection before any update
(`!source || !target || source === target`), `some p` means an update with
payload `p` was issued via the external API client. -/
def createKnativeEventSourceSink (source target : Option K8sResourceKind) : Option K8sResourceKind :=
  match source, target with
  | some s, some t =>
    if s = t then none
    else
      let eventSourceObj : K8sResourceKind := { s with status := none }
      let sink : Sink :=
        if (t.type.bind TypeField.nodeType) = some NodeType.SinkUri then
          { uri := t.spec.bind Spec.sinkUri }
        else
          { ref := some { apiVersion := t.apiVersion, kind := t.kind, name := t.metadata.name } }
      some { eventSourceObj with spec := some { (eventSourceObj.spec.getD {}) with sink := some sink } }
  | _, _ => none

/-- `createEventingTrigger`'s synthesized trigger object; the external
`getRandomChars()` suffix is the `rand` parameter. -/
def createEventingTrigger (broker service : K8sResourceKind) (rand : String) : K8sResourceKind :=
  { apiVersion := some (EventingTriggerModel.apiGroup ++ "/" ++ EventingTriggerModel.apiVersion)
    kind := some EventingTriggerModel.kind
    metadata :=
      { name := some (jsStr broker.metadata.name ++ "-trigger-" ++ rand)
        ns := broker.metadata.ns }
    spec := some
      { broker := broker.metadata.name
        subscriber := some
          { ref := some
              { apiVersion := some (ServiceModel.apiGroup ++ "/" ++ ServiceModel.apiVersion)
                kind := some ServiceModel.kind
                name := service.metadata.name } } } }

/-- Modelled from the spec: the outcome of one external API-client call
(`k8sCreate` / `k8sUpdate` from the internal k8s module, outside this
fragment): it resolves with a resource or rejects with an error message. -/
inductive K8sCallOutcome where
  | ok (res : K8sResourceKind)
  | err (message : String)
  deriving Repr, DecidableEq

/-- What a mutation operation did, observably: the payload it sent, what
its promise resolves with (`none` embeds `undefined`), whether the promise
rejects, and the notification side effects (`errorModal` title/message
pairs). -/
structure MutationResult where
  payload : K8sResourceKind
  resolved : Option K8sResourceKind := none
  rejectedCall : Bool := false
  notifications : List (String × String) := []
  deriving Repr, DecidableEq

/-- `createEventingTrigger` including its `.catch`: on failure the error is
reported through `errorModal` and the promise still resolves (with
`undefined`). -/
def createEventingTriggerRun (broker service : K8sResourceKind) (rand : String) (outcome : K8sCallOutcome) : MutationResult :=
  let trigger := createEventingTrigger broker service rand
  match outcome with
  | K8sCallOutcome.ok r => { payload := trigger, resolved := some r }
  | K8sCallOutcome.err m =>
    { payload := trigger, resolved := none, rejectedCall := false
      notifications := [("Error creating trigger", m)] }

/-! ## Shared helper lemmas -/

/-- The first match of `find?` is the head of the filtered list. -/
theorem find?_eq_head?_filter (p : α → Bool) (l : List α) : l.find? p = (l.filter p).head? := by
  induction l with
  | nil => rfl
  | cons a l ih =>
    cases h : p a with
    | true => rw [List.find?_cons_of_pos _ h, List.filter_cons_of_pos h, List.head?_cons]
    | false =>
      rw [List.find?_cons_of_neg _ (by simp [h]), List.filter_cons_of_neg (by simp [h]), ih]

/-! ## Claim C5 -/

/-- Claim C5: `isInternalResource` returns true exactly when the resource's
kind is not the broker kind and it carries an `ownerReferences` field; in
particular a broker with owners is never internal, a non-broker with owners
is internal, and a non-broker without owners is not. -/
theorem isInternalResource_iff (resource : K8sResourceKind) :
    isInternalResource resource = true ↔
      (resource.kind ≠ some EventingBrokerModel.kind ∧ resource.metadata.ownerReferences.isSome = true) := by
  simp [isInternalResource, Bool.and_eq_true, decide_eq_true_eq]

/-! ## Claim C6 -/

/-- Claim C6: `getParentResource` returns the first candidate, in
collection order, whose uid appears among the uids of the resource's owner
references (`find?` semantics), and returns none whenever the resource has
no owner references, regardless of the candidate list. -/
theorem getParentResource_spec (resource : K8sResourceKind) (resources : List K8sResourceKind) :
    getParentResource resource resources
      = resources.find? (fun c =>
          match c.metadata.uid with
          | some u => ((resource.metadata.ownerReferences.getD []).map OwnerRef.uid).contains u
          | none => false)
    ∧ (resource.metadata.ownerReferences.getD [] = [] →
        getParentResource resource resources = none) := by
  constructor
  · rw [getParentResource, find?_eq_head?_filter]
  · intro h
    rw [getParentResource]
    have hall : ∀ c : K8sResourceKind,
        (match c.metadata.uid with
         | some u => ((resource.metadata.ownerReferences.getD []).map OwnerRef.uid).contains u
         | none => false) = false := by
      intro c
      cases c.metadata.uid <;> simp [h]
    simp only [hall, List.filter_false]
    rfl

/-- Resources for the C6 witness. -/
def parentW1 : K8sResourceKind := { metadata := { uid := some "p1" } }

def parentW2 : K8sResourceKind := { metadata := { uid := some "p2" } }

def noiseW : K8sResourceKind := { metadata := { uid := some "n1" } }

def childW : K8sResourceKind :=
  { metadata := { uid := some "c", ownerReferences := some [{ uid := "p1" }, { uid := "p2" }] } }

def orphanW : K8sResourceKind := { metadata := { uid := some "o" } }

/-- Witness for C6: with two matching candidates the first in collection
order wins, and a resource without owner references resolves to none. -/
theorem getParentResource_spec_witness :
    getParentResource childW [noiseW, parentW1, parentW2] = some parentW1
    ∧ getParentResource orphanW [noiseW, parentW1, parentW2] = none := by
  constructor
  · rw [(getParentResource_spec childW [noiseW, parentW1, parentW2]).1]
    decide
  · exact (getParentResource_spec orphanW [noiseW, parentW1, parentW2]).2 rfl

/-! ## Claim C9 -/

/-- Claim C9: the Graph Assembler is a pure, deterministic function of the
resource list, node type, snapshot, enricher list (and the dynamic
category registries): two invocations on the same inputs produce
identical node id sets, edge id sets and edge data. -/
theorem transformKnNodeData_deterministic (esRefs chRefs : List String)
    (knResourcesData : List K8sResourceKind) (type : String)
    (resources : TopologyDataResources) (utils : Option (List KnativeUtil)) :
    (transformKnNodeData esRefs chRefs knResourcesData type resources utils).nodes.map NodeModel.id
      = (transformKnNodeData esRefs chRefs knResourcesData type resources utils).nodes.map NodeModel.id
    ∧ (transformKnNodeData esRefs chRefs knResourcesData type resources utils).edges.map EdgeModel.id
      = (transformKnNodeData esRefs chRefs knResourcesData type resources utils).edges.map EdgeModel.id
    ∧ (transformKnNodeData esRefs chRefs knResourcesData type resources utils).edges.map EdgeModel.data
      = (transformKnNodeData esRefs chRefs knResourcesData type resources utils).edges.map EdgeModel.data :=
  ⟨rfl, rfl, rfl⟩

/-! ## Claim C7 -/

/-- Claim C7: `createEventingTrigger` issues a create whose payload is
named `"<broker-name>-trigger-<random>"` in the broker's namespace and
wires the broker (by name) to the service (as subscriber); every failure
of the create call is intercepted — a notification is emitted and the
operation resolves with an empty result instead of rejecting. -/
theorem createEventingTrigger_spec (broker service : K8sResourceKind) (rand : String)
    (bn : String) (hb : broker.metadata.name = some bn) (outcome : K8sCallOutcome) :
    (createEventingTriggerRun broker service rand outcome).payload.metadata.name
        = some (bn ++ "-trigger-" ++ rand)
    ∧ (createEventingTriggerRun broker service rand outcome).payload.metadata.ns
        = broker.metadata.ns
    ∧ (createEventingTriggerRun broker service rand outcome).payload.kind
        = some EventingTriggerModel.kind
    ∧ ((createEventingTriggerRun broker service rand outcome).payload.spec.bind Spec.broker)
        = some bn
    ∧ ((((createEventingTriggerRun broker service rand outcome).payload.spec.bind
          Spec.subscriber).bind Sink.ref).bind SinkRef.name) = service.metadata.name
    ∧ ((((createEventingTriggerRun broker service rand outcome).payload.spec.bind
          Spec.subscriber).bind Sink.ref).bind SinkRef.kind) = some ServiceModel.kind
    ∧ (createEventingTriggerRun broker service rand outcome).rejectedCall = false
    ∧ (∀ m, outcome = K8sCallOutcome.err m →
        (createEventingTriggerRun broker service rand outcome).resolved = none
        ∧ (createEventingTriggerRun broker service rand outcome).notifications
            = [("Error creating trigger", m)]) := by
  cases outcome with
  | ok r =>
    refine ⟨?_, rfl, rfl, ?_, rfl, rfl, rfl, ?_⟩
    · simp [createEventingTriggerRun, createEventingTrigger, hb, jsStr]
    · simp [createEventingTriggerRun, createEventingTrigger, hb]
    · intro m hm; cases hm
  | err m0 =>
    refine ⟨?_, rfl, rfl, ?_, rfl, rfl, rfl, ?_⟩
    · simp [createEventingTriggerRun, createEventingTrigger, hb, jsStr]
    · simp [createEventingTriggerRun, createEventingTrigger, hb]
    · intro m hm
      cases hm
      exact ⟨rfl, rfl⟩

/-- Resources for the C7 witness. -/
def brokerW : K8sResourceKind := { kind := some "Broker", metadata := { name := some "bk", ns := some "team-a" } }

def svcTargetW : K8sResourceKind := { kind := some "Service", metadata := { name := some "sv" } }

/-- Witness for C7: a failed create resolves (does not reject), reports
the error, and the payload carries the synthesized name and namespace. -/
theorem createEventingTrigger_spec_witness :
    (createEventingTriggerRun brokerW svcTargetW "r4nd" (K8sCallOutcome.err "boom")).payload.metadata.name
        = some "bk-trigger-r4nd"
    ∧ (createEventingTriggerRun brokerW svcTargetW "r4nd" (K8sCallOutcome.err "boom")).rejectedCall = false
    ∧ (createEventingTriggerRun brokerW svcTargetW "r4nd" (K8sCallOutcome.err "boom")).resolved = none
    ∧ (createEventingTriggerRun brokerW svcTargetW "r4nd" (K8sCallOutcome.err "boom")).notifications
        = [("Error creating trigger", "boom")] := by
  have h := createEventingTrigger_spec brokerW svcTargetW "r4nd" "bk" rfl (K8sCallOutcome.err "boom")
  exact ⟨h.1, h.2.2.2.2.2.2.1, (h.2.2.2.2.2.2.2 "boom" rfl).1, (h.2.2.2.2.2.2.2 "boom" rfl).2⟩

/-! ## Claim C8 -/

/-- The sink value the claim describes: `{uri}` for a sink-uri target,
`{ref:{apiVersion,kind,name}}` otherwise. -/
def sinkFor (t : K8sResourceKind) : Sink :=
  if (t.type.bind TypeField.nodeType) = some NodeType.SinkUri then
    { uri := t.spec.bind Spec.sinkUri }
  else
    { ref := some { apiVersion := t.apiVersion, kind := t.kind, name := t.metadata.name } }

/-- The update payload the claim describes: the source with `status`
removed and `spec.sink` replaced, the rest of the spec unchanged. -/
def sinkUpdatePayload (s t : K8sResourceKind) : K8sResourceKind :=
  { s with
    status := none
    spec := some { (s.spec.getD {}) with sink := some (sinkFor t) } }

/-- Claim C8: `createKnativeEventSourceSink` rejects without issuing any
update exactly when the source is missing, the target is missing, or they
are identical; otherwise it issues one update whose payload is the source
with `status` removed and `spec.sink` set to `{uri}` for a sink-uri target
and to `{ref:{apiVersion,kind,name}}` otherwise, the rest of the spec
unchanged. -/
theorem createKnativeEventSourceSink_spec (source target : Option K8sResourceKind) :
    (createKnativeEventSourceSink source target = none
      ↔ source = none ∨ target = none ∨ source = target)
    ∧ (∀ s t, source = some s → target = some t → s ≠ t →
        createKnativeEventSourceSink source target = some (sinkUpdatePayload s t)) := by
  constructor
  · cases source with
    | none => simp [createKnativeEventSourceSink]
    | some s =>
      cases target with
      | none => simp [createKnativeEventSourceSink]
      | some t =>
        by_cases h : s = t <;> simp [createKnativeEventSourceSink, h]
  · intro s t hs ht hne
    subst hs; subst ht
    simp [createKnativeEventSourceSink, sinkUpdatePayload, sinkFor, hne]

/-- Resources for the C8 witness. -/
def esSrcW : K8sResourceKind :=
  { kind := some "ApiServerSource"
    metadata := { uid := some "es-w", name := some "src-w" }
    spec := some { sink := some { ref := some { kind := some "Service", name := some "old" } } }
    status := some { url := some "http://old" } }

def sinkNodeW : K8sResourceKind :=
  { metadata := { uid := some "http%3A%2F%2Fx" }
    spec := some { sinkUri := some "http://x" }
    type := some { nodeType := some "sink-uri" } }

/-- Witness for C8: connecting a source to a sink-uri target issues an
update whose payload has `status` stripped and `spec.sink = {uri}`. -/
theorem createKnativeEventSourceSink_spec_witness :
    createKnativeEventSourceSink (some esSrcW) (some sinkNodeW) = some (sinkUpdatePayload esSrcW sinkNodeW)
    ∧ (sinkUpdatePayload esSrcW sinkNodeW).status = none
    ∧ ((sinkUpdatePayload esSrcW sinkNodeW).spec.bind Spec.sink) = some { uri := some "http://x" } := by
  refine ⟨(createKnativeEventSourceSink_spec (some esSrcW) (some sinkNodeW)).2
    esSrcW sinkNodeW rfl rfl (by decide), by decide, by decide⟩

/-! ## Claim C10 -/

/-- Claim C10: a resource whose status has no traffic list makes
`filterRevisionsBaseOnTrafficStatus` return none (not an empty list), and
`getKnativeTopologyNodeItems` for a Knative-service node on such a
resource produces exactly one node — the group node itself, with an empty
children list and no revision child nodes. -/
theorem noTrafficStatus_single_group_node (resource : K8sResourceKind)
    (revisions : List K8sResourceKind) (data : TopologyDataObject)
    (rs : TopologyDataResources)
    (h : resource.status.bind Status.traffic = none) :
    filterRevisionsBaseOnTrafficStatus resource revisions = none
    ∧ getKnativeTopologyNodeItems resource NodeType.KnService data (some rs)
        = [getTopologyNodeItem resource NodeType.KnService (some data)
            (getKnNodeModelProps NodeType.KnService) []] := by
  have key : ∀ revs : List K8sResourceKind,
      filterRevisionsBaseOnTrafficStatus resource revs = none := by
    intro revs
    rw [filterRevisionsBaseOnTrafficStatus, h]
  refine ⟨key revisions, ?_⟩
  simp [getKnativeTopologyNodeItems, key]

/-- Resources for the C10 witness. -/
def noTrafficSvcW : K8sResourceKind :=
  { kind := some "Service", metadata := { uid := some "nt-svc" }, status := some {} }

def dataW : TopologyDataObject := { id := some "nt-svc", type := NodeType.KnService }

/-- Witness for C10: the service with a status but no traffic list yields
none from the filter and a single group node with no children. -/
theorem noTrafficStatus_single_group_node_witness :
    filterRevisionsBaseOnTrafficStatus noTrafficSvcW [parentW1] = none
    ∧ getKnativeTopologyNodeItems noTrafficSvcW NodeType.KnService dataW (some {})
        = [getTopologyNodeItem noTrafficSvcW NodeType.KnService (some dataW)
            (getKnNodeModelProps NodeType.KnService) []] :=
  noTrafficStatus_single_group_node noTrafficSvcW [parentW1] dataW {} rfl

/-! ## Claim C4 -/

/-- Claim C4: `filterRevisionsByActiveApplication` keeps a revision exactly
when the service found (afresh, by owner-reference lookups) as the parent
of the parent configuration of the revision has a `status.traffic` entry
naming the revision, and that service passes the active-application group
filter; revisions failing either condition are omitted. -/
theorem filterRevisionsByActiveApplication_keeps_iff (revisions : List K8sResourceKind)
    (resources : TopologyDataResources) (application : String) (rev : K8sResourceKind) :
    rev ∈ filterRevisionsByActiveApplication revisions resources application ↔
      (rev ∈ revisions ∧
        ∃ svc st,
          getParentResourceOpt (getParentResource rev resources.configurations)
              resources.ksservices = some svc
          ∧ svc.status = some st
          ∧ (∃ t ∈ st.traffic.getD [], t.revisionName = rev.metadata.name)
          ∧ 0 < (filterBasedOnActiveApplication [some svc] application).length) := by
  simp only [filterRevisionsByActiveApplication, List.mem_filter]
  constructor
  · rintro ⟨hmem, hcond⟩
    refine ⟨hmem, ?_⟩
    rw [Bool.and_eq_true] at hcond
    obtain ⟨htraffic, happ⟩ := hcond
    cases hsvc : getParentResourceOpt (getParentResource rev resources.configurations)
        resources.ksservices with
    | none => rw [hsvc] at htraffic; simp at htraffic
    | some svc =>
      rw [hsvc] at htraffic happ
      have htraffic2 : (match svc.status with
          | none => false
          | some st => (st.traffic.getD []).any fun t =>
              decide (t.revisionName = rev.metadata.name)) = true := htraffic
      cases hst : svc.status with
      | none => rw [hst] at htraffic2; simp at htraffic2
      | some st =>
        rw [hst] at htraffic2
        have htraffic3 : ((st.traffic.getD []).any fun t =>
            decide (t.revisionName = rev.metadata.name)) = true := htraffic2
        simp only [List.any_eq_true, decide_eq_true_eq] at htraffic3
        obtain ⟨t, ht, hname⟩ := htraffic3
        refine ⟨svc, st, rfl, hst, ⟨t, ht, hname⟩, ?_⟩
        simpa using happ
  · rintro ⟨hmem, svc, st, hsvc, hst, ⟨t, ht, hname⟩, happ⟩
    refine ⟨hmem, ?_⟩
    rw [Bool.and_eq_true, hsvc]
    constructor
    · show (match svc.status with
        | none => false
        | some st => (st.traffic.getD []).any fun t =>
            decide (t.revisionName = rev.metadata.name)) = true
      rw [hst]
      show ((st.traffic.getD []).any fun t =>
          decide (t.revisionName = rev.metadata.name)) = true
      simp only [List.any_eq_true, decide_eq_true_eq]
      exact ⟨t, ht, hname⟩
    · simpa using happ

/-! ## Claim C3 -/

/-- Resources for the C3 counterexample: a service owning two
configurations, each owning one revision. -/
def svcC3 : K8sResourceKind := { kind := some "Service", metadata := { uid := some "s" } }

def cfg1C3 : K8sResourceKind :=
  { metadata := { uid := some "c1", ownerReferences := some [{ uid := "s" }] } }

def cfg2C3 : K8sResourceKind :=
  { metadata := { uid := some "c2", ownerReferences := some [{ uid := "s" }] } }

def rev1C3 : K8sResourceKind :=
  { metadata := { uid := some "r1", name := some "r1", ownerReferences := some [{ uid := "c1" }] } }

def rev2C3 : K8sResourceKind :=
  { metadata := { uid := some "r2", name := some "r2", ownerReferences := some [{ uid := "c2" }] } }

def resourcesC3 : TopologyDataResources :=
  { configurations := [cfg1C3, cfg2C3], revisions := [rev1C3, rev2C3], deployments := some [] }

/-- Counterexample to claim C3 as stated: the service owns two
configurations and the second owns revision `r2`, yet the overview item's
revisions contain only the first configuration's revision — `r2` is
dropped, so the revisions field does not contain, for each owned
configuration, the revisions owned by that configuration. -/
theorem createKnativeDeploymentItems_drops_later_configurations :
    getOwnedResources svcC3 resourcesC3.configurations = [cfg1C3, cfg2C3]
    ∧ getOwnedResources cfg2C3 resourcesC3.revisions = [rev2C3]
    ∧ ((createKnativeDeploymentItems svcC3 resourcesC3 none).revisions.getD []).map RevisionItem.res
        = [rev1C3]
    ∧ rev2C3 ∉ ((createKnativeDeploymentItems svcC3 resourcesC3 none).revisions.getD []).map RevisionItem.res := by
  refine ⟨by decide, by decide, by decide, by decide⟩

/-- The revision/deployment reduce only decorates each revision; the
underlying revision list is unchanged. -/
theorem knRevisionStep_fold_map_res (resources : TopologyDataResources) :
    ∀ (revs : List K8sResourceKind) (acc : RevisionsDeploymentData),
      ((revs.foldl (knRevisionStep resources) acc).revisionsDep).map RevisionItem.res
        = acc.revisionsDep.map RevisionItem.res ++ revs := by
  intro revs
  induction revs with
  | nil => intro acc; simp
  | cons r revs ih =>
    intro acc
    rw [List.foldl_cons, ih]
    have hstep : ((knRevisionStep resources acc r).revisionsDep).map RevisionItem.res
        = acc.revisionsDep.map RevisionItem.res ++ [r] := by
      rw [knRevisionStep]
      cases resources.deployments with
      | none => simp
      | some deps =>
        cases hod : getOwnedResources r deps with
        | nil => simp [hod]
        | cons d ds => simp [hod]
    rw [hstep, List.append_assoc]
    rfl

/-- Claim C3, amended: for a resource with no owned deployment (and no
enrichers), the rollup records all owned configurations, but the revisions
field holds exactly the revisions owned by the FIRST owned configuration,
in collection order — the empty list when no configuration is owned;
revisions of later configurations are omitted. -/
theorem createKnativeDeploymentItems_first_config_revisions (resource : K8sResourceKind)
    (resources : TopologyDataResources)
    (hdep : getOwnedResources resource (resources.deployments.getD []) = []) :
    (createKnativeDeploymentItems resource resources none).configurations
        = some (getOwnedResources resource resources.configurations)
    ∧ ((createKnativeDeploymentItems resource resources none).revisions).map
          (fun l => l.map RevisionItem.res)
        = some (match getOwnedResources resource resources.configurations with
            | [] => []
            | c :: _ => getOwnedResources c resources.revisions) := by
  rw [createKnativeDeploymentItems, hdep]
  rw [getKnativeServiceData]
  simp only [applyUtils]
  cases hcfg : getOwnedResources resource resources.configurations with
  | nil =>
    simp [mergeOverview, knRevisionStep_fold_map_res]
  | cons c cs =>
    simp [mergeOverview, knRevisionStep_fold_map_res]

/-- Witness for the amended C3: on the two-configuration snapshot the
rollup reports both configurations but only the first one's revision. -/
theorem createKnativeDeploymentItems_first_config_revisions_witness :
    (createKnativeDeploymentItems svcC3 resourcesC3 none).configurations = some [cfg1C3, cfg2C3]
    ∧ ((createKnativeDeploymentItems svcC3 resourcesC3 none).revisions).map
        (fun l => l.map RevisionItem.res) = some [rev1C3] := by
  have h := createKnativeDeploymentItems_first_config_revisions svcC3 resourcesC3 (by decide)
  refine ⟨?_, ?_⟩
  · rw [h.1]; decide
  · rw [h.2]; decide

/-! ## Claim C1 -/

/-- The traffic entries resolving to a given revision uid. -/
def trafficEntriesFor (data : List K8sResourceKind) (ts : List TrafficEntry) (u : String) : List TrafficEntry :=
  ts.filter fun t => decide (resolveRevUid data t = some u)

/-- One step of the first-occurrence scan of resolved (truthy) revision
uids. -/
def firstOccStep (data : List K8sResourceKind) (us : List String) (t : TrafficEntry) : List String :=
  match resolveRevUid data t with
  | some u => if u ≠ "" ∧ u ∉ us then us ++ [u] else us
  | none => us

/-- The distinct truthy revision uids resolved by the traffic entries, in
order of first occurrence. -/
def firstOccUids (data : List K8sResourceKind) (ts : List TrafficEntry) : List String :=
  ts.foldl (firstOccStep data) []

/-- The merged traffic edge for one revision uid. -/
def mkTrafficEdge (uid : Option String) (u : String) (p : Option Int) : EdgeModel :=
  { id := jsStr uid ++ "_" ++ u, type := EdgeType.Traffic,
    source := uid, target := some u, data := some { percent := p } }

/-- The canonical merged edge of a revision uid over a set of processed
traffic entries. -/
def edgeFor (uid : Option String) (data : List K8sResourceKind) (ts : List TrafficEntry) (u : String) : EdgeModel :=
  mkTrafficEdge uid u (jsSum ((trafficEntriesFor data ts u).map TrafficEntry.percent))

theorem jsSum_append_single (l : List (Option Int)) (x : Option Int) (h : l ≠ []) :
    jsSum (l ++ [x]) = jsAdd (jsSum l) x := by
  cases l with
  | nil => exact absurd rfl h
  | cons a l => simp [jsSum, List.foldl_append]

theorem str_append_cancel (p a b : String) (h : p ++ a = p ++ b) : a = b := by
  have h2 := congrArg String.data h
  simp only [String.data_append] at h2
  have h3 := List.append_cancel_left h2
  cases a; cases b
  simp only at h3
  simp [h3]

theorem mem_firstOccStep (data : List K8sResourceKind) (us : List String) (t : TrafficEntry) (u : String) :
    u ∈ firstOccStep data us t ↔
      u ∈ us ∨ (u ≠ "" ∧ u ∉ us ∧ resolveRevUid data t = some u) := by
  rw [firstOccStep]
  cases hres : resolveRevUid data t with
  | none =>
    show u ∈ us ↔ _
    simp [hres]
  | some v =>
    show u ∈ (if v ≠ "" ∧ v ∉ us then us ++ [v] else us) ↔ _
    by_cases hcond : v ≠ "" ∧ v ∉ us
    · rw [if_pos hcond]
      simp only [List.mem_append, List.mem_singleton]
      constructor
      · rintro (h | h)
        · exact Or.inl h
        · subst h; exact Or.inr ⟨hcond.1, hcond.2, rfl⟩
      · rintro (h | ⟨h1, h2, h3⟩)
        · exact Or.inl h
        · have hvu : v = u := Option.some.inj h3
          exact Or.inr hvu.symm
    · rw [if_neg hcond]
      constructor
      · exact Or.inl
      · rintro (h | ⟨h1, h2, h3⟩)
        · exact h
        · have hvu : v = u := Option.some.inj h3
          subst hvu
          exact absurd ⟨h1, h2⟩ hcond

theorem mem_firstOcc_fold (data : List K8sResourceKind) (u : String) :
    ∀ (ts : List TrafficEntry) (us : List String),
      u ∈ ts.foldl (firstOccStep data) us ↔
        u ∈ us ∨ (u ≠ "" ∧ ∃ t ∈ ts, resolveRevUid data t = some u) := by
  intro ts
  induction ts with
  | nil => intro us; simp
  | cons t ts ih =>
    intro us
    rw [List.foldl_cons, ih, mem_firstOccStep]
    have hcons : (∃ t2 ∈ t :: ts, resolveRevUid data t2 = some u) ↔
        (resolveRevUid data t = some u ∨ ∃ t2 ∈ ts, resolveRevUid data t2 = some u) := by
      constructor
      · rintro ⟨t2, ht2, h⟩
        rcases List.mem_cons.mp ht2 with heq | hmem
        · subst heq; exact Or.inl h
        · exact Or.inr ⟨t2, hmem, h⟩
      · rintro (h | ⟨t2, hmem, h⟩)
        · exact ⟨t, List.mem_cons_self t ts, h⟩
        · exact ⟨t2, List.mem_cons_of_mem t hmem, h⟩
    rw [hcons]
    tauto

theorem nodup_firstOccStep (data : List K8sResourceKind) (us : List String) (t : TrafficEntry)
    (h : us.Nodup) : (firstOccStep data us t).Nodup := by
  rw [firstOccStep]
  cases resolveRevUid data t with
  | none => exact h
  | some v =>
    show (if v ≠ "" ∧ v ∉ us then us ++ [v] else us).Nodup
    by_cases hcond : v ≠ "" ∧ v ∉ us
    · rw [if_pos hcond, List.nodup_append]
      refine ⟨h, List.nodup_singleton v, ?_⟩
      intro a ha hav
      rw [List.mem_singleton] at hav
      subst hav
      exact hcond.2 ha
    · rw [if_neg hcond]; exact h

theorem nodup_firstOcc_fold (data : List K8sResourceKind) :
    ∀ (ts : List TrafficEntry) (us : List String), us.Nodup →
      (ts.foldl (firstOccStep data) us).Nodup := by
  intro ts
  induction ts with
  | nil => intro us h; exact h
  | cons t ts ih =>
    intro us h
    rw [List.foldl_cons]
    exact ih _ (nodup_firstOccStep data us t h)

theorem firstOcc_append_single (data : List K8sResourceKind) (ts : List TrafficEntry) (t : TrafficEntry) :
    firstOccUids data (ts ++ [t]) = firstOccStep data (firstOccUids data ts) t := by
  rw [firstOccUids, firstOccUids, List.foldl_append]
  rfl

theorem findIndexOpt_none_of_all (p : α → Bool) :
    ∀ (l : List α), (∀ a ∈ l, p a = false) → findIndexOpt p l = none := by
  intro l
  induction l with
  | nil => intro _; rfl
  | cons a l ih =>
    intro h
    rw [findIndexOpt, if_neg (by simp [h a (List.mem_cons_self a l)]),
      ih (fun b hb => h b (List.mem_cons_of_mem a hb))]
    rfl

theorem findIndexOpt_map_found (pre : String) (g : String → EdgeModel)
    (f : EdgeModel → EdgeModel) (u0 : String)
    (hg : ∀ u, (g u).id = pre ++ u) :
    ∀ (uids : List String), uids.Nodup → u0 ∈ uids →
      ∃ i, findIndexOpt (fun e => decide (e.id = pre ++ u0)) (uids.map g) = some i
        ∧ updateAt (uids.map g) i f
            = uids.map (fun u => if u = u0 then f (g u) else g u) := by
  intro uids
  induction uids with
  | nil => intro _ h; exact absurd h (by simp)
  | cons u rest ih =>
    intro hnodup hmem
    by_cases hu : u = u0
    · subst hu
      refine ⟨0, ?_, ?_⟩
      · rw [List.map_cons, findIndexOpt, if_pos (by simp [hg])]
      · rw [List.map_cons, updateAt, List.map_cons, if_pos rfl]
        have hrest : ∀ v ∈ rest, (if v = u then f (g v) else g v) = g v := by
          intro v hv
          rw [if_neg]
          intro hvu
          subst hvu
          exact (List.nodup_cons.mp hnodup).1 hv
        rw [List.map_congr_left hrest]
    · have hmem2 : u0 ∈ rest := by
        rcases List.mem_cons.mp hmem with h | h
        · exact absurd h.symm hu
        · exact h
      obtain ⟨i, hfi, hup⟩ := ih (List.nodup_cons.mp hnodup).2 hmem2
      have hp : (decide ((g u).id = pre ++ u0)) = false := by
        rw [hg]
        simp only [decide_eq_false_iff_not]
        intro hc
        exact hu (str_append_cancel _ _ _ hc)
      refine ⟨i + 1, ?_, ?_⟩
      · rw [List.map_cons, findIndexOpt, if_neg (by simp [hp]), hfi]
        rfl
      · rw [List.map_cons, updateAt, hup, List.map_cons, if_neg hu]

theorem findIndexOpt_map_notfound (pre : String) (g : String → EdgeModel) (u0 : String)
    (hg : ∀ u, (g u).id = pre ++ u)
    (uids : List String) (hall : ∀ u ∈ uids, u ≠ u0) :
    findIndexOpt (fun e => decide (e.id = pre ++ u0)) (uids.map g) = none := by
  apply findIndexOpt_none_of_all
  intro e he
  rcases List.mem_map.mp he with ⟨u, hu, rfl⟩
  rw [hg]
  simp only [decide_eq_false_iff_not]
  intro hc
  exact hall u hu (str_append_cancel _ _ _ hc)

theorem trafficEntriesFor_append (data : List K8sResourceKind) (ts1 ts2 : List TrafficEntry)
    (u : String) :
    trafficEntriesFor data (ts1 ++ ts2) u
      = trafficEntriesFor data ts1 u ++ trafficEntriesFor data ts2 u := by
  rw [trafficEntriesFor, trafficEntriesFor, trafficEntriesFor, List.filter_append]

theorem trafficEntriesFor_single_pos (data : List K8sResourceKind) (t : TrafficEntry) (u : String)
    (h : resolveRevUid data t = some u) : trafficEntriesFor data [t] u = [t] := by
  simp [trafficEntriesFor, h]

theorem trafficEntriesFor_single_neg (data : List K8sResourceKind) (t : TrafficEntry) (u : String)
    (h : resolveRevUid data t ≠ some u) : trafficEntriesFor data [t] u = [] := by
  simp [trafficEntriesFor, h]

theorem trafficEntriesFor_ne_nil_of_mem (data : List K8sResourceKind) (ts : List TrafficEntry)
    (u : String) (h : u ∈ firstOccUids data ts) : trafficEntriesFor data ts u ≠ [] := by
  rw [firstOccUids] at h
  rcases (mem_firstOcc_fold data u ts []).mp h with h2 | ⟨_, t, hmem, hres⟩
  · exact absurd h2 (by simp)
  · exact List.ne_nil_of_mem (List.mem_filter.mpr ⟨hmem, by simp [hres]⟩)

theorem trafficEntriesFor_eq_nil_of_not_mem (data : List K8sResourceKind) (ts : List TrafficEntry)
    (u : String) (hne : u ≠ "") (h : u ∉ firstOccUids data ts) :
    trafficEntriesFor data ts u = [] := by
  rw [firstOccUids] at h
  rw [trafficEntriesFor, List.filter_eq_nil_iff]
  intro t ht
  simp only [decide_eq_true_eq]
  intro hres
  exact h ((mem_firstOcc_fold data u ts []).mpr (Or.inr ⟨hne, t, ht, hres⟩))

theorem edgeFor_congr_of_unresolved (uid : Option String) (data : List K8sResourceKind)
    (ts : List TrafficEntry) (t : TrafficEntry) (u : String)
    (h : resolveRevUid data t ≠ some u) :
    edgeFor uid data (ts ++ [t]) u = edgeFor uid data ts u := by
  rw [edgeFor, edgeFor, trafficEntriesFor_append, trafficEntriesFor_single_neg data t u h,
    List.append_nil]

theorem trafficStep_unresolved (uid : Option String) (data : List K8sResourceKind)
    (edges : List EdgeModel) (t : TrafficEntry)
    (h : strTruthy (resolveRevUid data t) = false) :
    trafficStep uid data edges t = edges := by
  simp only [trafficStep, h, Bool.false_eq_true, if_false]

theorem trafficStep_resolved (uid : Option String) (data : List K8sResourceKind)
    (edges : List EdgeModel) (t : TrafficEntry) (u0 : String)
    (h : resolveRevUid data t = some u0) (hu : u0 ≠ "") :
    trafficStep uid data edges t =
      match findIndexOpt (fun e => decide (e.id = jsStr uid ++ "_" ++ u0)) edges with
      | some i => updateAt edges i (addPercent t.percent)
      | none => edges ++ [{ id := jsStr uid ++ "_" ++ u0, type := EdgeType.Traffic,
                            source := uid, target := some u0,
                            data := some { percent := t.percent } }] := by
  simp only [trafficStep, h, strTruthy, jsStr]
  rw [if_pos (by simpa using hu)]

theorem firstOccStep_unresolved (data : List K8sResourceKind) (us : List String)
    (t : TrafficEntry) (h : resolveRevUid data t = none) :
    firstOccStep data us t = us := by
  rw [firstOccStep, h]

theorem firstOccStep_resolved (data : List K8sResourceKind) (us : List String)
    (t : TrafficEntry) (u0 : String) (h : resolveRevUid data t = some u0) :
    firstOccStep data us t = if u0 ≠ "" ∧ u0 ∉ us then us ++ [u0] else us := by
  rw [firstOccStep, h]

theorem trafficStep_canonical (uid : Option String) (data : List K8sResourceKind)
    (ts : List TrafficEntry) (t : TrafficEntry) :
    trafficStep uid data ((firstOccUids data ts).map (edgeFor uid data ts)) t
      = (firstOccUids data (ts ++ [t])).map (edgeFor uid data (ts ++ [t])) := by
  rw [firstOcc_append_single]
  cases hres : resolveRevUid data t with
  | none =>
    rw [trafficStep_unresolved uid data _ t (by rw [hres]; rfl),
      firstOccStep_unresolved data _ t hres]
    exact (List.map_congr_left fun v _ =>
      (edgeFor_congr_of_unresolved uid data ts t v (by rw [hres]; simp))).symm
  | some u0 =>
    by_cases hu0 : u0 = ""
    · subst hu0
      rw [trafficStep_unresolved uid data _ t (by rw [hres]; rfl),
        firstOccStep_resolved data _ t "" hres, if_neg (by simp)]
      refine (List.map_congr_left fun v hv => ?_).symm
      have hvne : v ≠ "" := by
        rcases (mem_firstOcc_fold data v ts []).mp (by simpa [firstOccUids] using hv) with h | h
        · exact absurd h (by simp)
        · exact h.1
      exact edgeFor_congr_of_unresolved uid data ts t v
        (by rw [hres]; intro hc; exact hvne (Option.some.inj hc).symm)
    · rw [trafficStep_resolved uid data _ t u0 hres hu0,
        firstOccStep_resolved data _ t u0 hres]
      have hnodup : (firstOccUids data ts).Nodup := nodup_firstOcc_fold data ts [] List.nodup_nil
      have hg : ∀ v, (edgeFor uid data ts v).id = (jsStr uid ++ "_") ++ v := fun v => rfl
      by_cases hmem : u0 ∈ firstOccUids data ts
      · obtain ⟨i, hfi, hup⟩ := findIndexOpt_map_found (jsStr uid ++ "_") (edgeFor uid data ts)
          (addPercent t.percent) u0 hg (firstOccUids data ts) hnodup hmem
        rw [if_neg (by simp [hmem])]
        rw [hfi]
        show updateAt ((firstOccUids data ts).map (edgeFor uid data ts)) i
            (addPercent t.percent) = _
        rw [hup]
        refine List.map_congr_left fun v hv => ?_
        by_cases hvu : v = u0
        · subst hvu
          rw [if_pos rfl]
          have hps : (trafficEntriesFor data ts v).map TrafficEntry.percent ≠ [] := by
            simp [trafficEntriesFor_ne_nil_of_mem data ts v hv]
          rw [edgeFor, edgeFor, trafficEntriesFor_append,
            trafficEntriesFor_single_pos data t v hres, List.map_append, List.map_singleton,
            jsSum_append_single _ _ hps]
          rfl
        · rw [if_neg hvu]
          exact (edgeFor_congr_of_unresolved uid data ts t v
            (by rw [hres]; intro hc; exact hvu (Option.some.inj hc).symm)).symm
      · have hall : ∀ v ∈ firstOccUids data ts, v ≠ u0 := by
          intro v hv hvu
          subst hvu
          exact hmem hv
        rw [if_pos ⟨hu0, hmem⟩]
        rw [findIndexOpt_map_notfound (jsStr uid ++ "_") (edgeFor uid data ts) u0 hg
          (firstOccUids data ts) hall]
        show (firstOccUids data ts).map (edgeFor uid data ts) ++
            [{ id := jsStr uid ++ "_" ++ u0, type := EdgeType.Traffic, source := uid,
               target := some u0, data := some { percent := t.percent } }]
          = (firstOccUids data ts ++ [u0]).map (edgeFor uid data (ts ++ [t]))
        rw [List.map_append, List.map_singleton]
        congr 1
        · exact List.map_congr_left fun v hv =>
            (edgeFor_congr_of_unresolved uid data ts t v
              (by rw [hres]; intro hc; exact (hall v hv) (Option.some.inj hc).symm)).symm
        · rw [edgeFor, trafficEntriesFor_append,
            trafficEntriesFor_eq_nil_of_not_mem data ts u0 hu0 hmem,
            trafficEntriesFor_single_pos data t u0 hres]
          rfl

theorem trafficFold_canonical (uid : Option String) (data : List K8sResourceKind) :
    ∀ (rest ts : List TrafficEntry),
      rest.foldl (trafficStep uid data) ((firstOccUids data ts).map (edgeFor uid data ts))
        = (firstOccUids data (ts ++ rest)).map (edgeFor uid data (ts ++ rest)) := by
  intro rest
  induction rest with
  | nil => intro ts; simp
  | cons t rest ih =>
    intro ts
    rw [List.foldl_cons, trafficStep_canonical, ih (ts ++ [t])]
    simp

theorem getTrafficTopologyEdgeItems_canonical (resource : K8sResourceKind)
    (data : List K8sResourceKind) :
    getTrafficTopologyEdgeItems resource data
      = (firstOccUids data ((resource.status.bind Status.traffic).getD [])).map
          (edgeFor resource.metadata.uid data ((resource.status.bind Status.traffic).getD [])) := by
  rw [getTrafficTopologyEdgeItems]
  have h := trafficFold_canonical resource.metadata.uid data
    ((resource.status.bind Status.traffic).getD []) []
  simpa [firstOccUids] using h

theorem filter_decide_eq_of_nodup (u : String) :
    ∀ (l : List String), l.Nodup →
      l.filter (fun x => decide (x = u)) = if u ∈ l then [u] else [] := by
  intro l
  induction l with
  | nil => intro _; simp
  | cons a l ih =>
    intro h
    rw [List.filter_cons]
    by_cases ha : a = u
    · subst ha
      rw [if_pos (by simp), if_pos (List.mem_cons_self a l)]
      have hnil : l.filter (fun x => decide (x = a)) = [] := by
        rw [List.filter_eq_nil_iff]
        intro b hb
        simp only [decide_eq_true_eq]
        intro hba
        subst hba
        exact (List.nodup_cons.mp h).1 hb
      rw [hnil]
    · rw [if_neg (by simp [ha]), ih (List.nodup_cons.mp h).2]
      by_cases hm : u ∈ l
      · rw [if_pos hm, if_pos (List.mem_cons_of_mem a hm)]
      · rw [if_neg hm, if_neg ?_]
        intro hc
        rcases List.mem_cons.mp hc with h1 | h1
        · exact ha h1.symm
        · exact hm h1

/-- Claim C1: the traffic edges of a service have pairwise-distinct
(source, target) pairs; for each truthy revision uid `u` the edge list
holds exactly one edge — id `"<service-uid>_<u>"` — whose `data.percent`
accumulates the `percent` of ALL traffic entries resolving (by
`revisionName`) to that revision, and no edge when no entry resolves to
it; with exactly two resolving entries of percents `p` and `q` the single
edge carries `percent = p + q`. -/
theorem getTrafficTopologyEdgeItems_merges (resource : K8sResourceKind)
    (data : List K8sResourceKind) (u : String) (hu : u ≠ "") :
    ((getTrafficTopologyEdgeItems resource data).map (fun e => (e.source, e.target))).Nodup
    ∧ ((getTrafficTopologyEdgeItems resource data).filter
          (fun e => decide (e.target = some u))
        = (if trafficEntriesFor data ((resource.status.bind Status.traffic).getD []) u = []
           then []
           else [mkTrafficEdge resource.metadata.uid u
                  (jsSum ((trafficEntriesFor data
                    ((resource.status.bind Status.traffic).getD []) u).map
                      TrafficEntry.percent))]))
    ∧ (∀ p q : Int,
        (trafficEntriesFor data ((resource.status.bind Status.traffic).getD []) u).map
            TrafficEntry.percent = [some p, some q] →
        (getTrafficTopologyEdgeItems resource data).filter
            (fun e => decide (e.target = some u))
          = [mkTrafficEdge resource.metadata.uid u (some (p + q))]) := by
  have hts : getTrafficTopologyEdgeItems resource data
      = (firstOccUids data ((resource.status.bind Status.traffic).getD [])).map
          (edgeFor resource.metadata.uid data
            ((resource.status.bind Status.traffic).getD [])) :=
    getTrafficTopologyEdgeItems_canonical resource data
  have hnodup : (firstOccUids data ((resource.status.bind Status.traffic).getD [])).Nodup :=
    nodup_firstOcc_fold data _ [] List.nodup_nil
  have hfilter : (getTrafficTopologyEdgeItems resource data).filter
        (fun e => decide (e.target = some u))
      = (if trafficEntriesFor data ((resource.status.bind Status.traffic).getD []) u = []
         then []
         else [mkTrafficEdge resource.metadata.uid u
                (jsSum ((trafficEntriesFor data
                  ((resource.status.bind Status.traffic).getD []) u).map
                    TrafficEntry.percent))]) := by
    rw [hts, List.filter_map]
    have hpred : ((fun e => decide (e.target = some u)) ∘
          edgeFor resource.metadata.uid data ((resource.status.bind Status.traffic).getD []))
        = fun v => decide (v = u) := by
      funext v
      simp [edgeFor, mkTrafficEdge, Function.comp]
    rw [hpred, filter_decide_eq_of_nodup u _ hnodup]
    by_cases hmem : u ∈ firstOccUids data ((resource.status.bind Status.traffic).getD [])
    · rw [if_pos hmem,
        if_neg (trafficEntriesFor_ne_nil_of_mem data _ u hmem), List.map_singleton]
      rfl
    · rw [if_neg hmem,
        if_pos (trafficEntriesFor_eq_nil_of_not_mem data _ u hu hmem), List.map_nil]
  refine ⟨?_, hfilter, ?_⟩
  · rw [hts, List.map_map]
    have hpair : ((fun e => (e.source, e.target)) ∘
          edgeFor resource.metadata.uid data ((resource.status.bind Status.traffic).getD []))
        = fun v => (resource.metadata.uid, some v) := by
      funext v
      simp [edgeFor, mkTrafficEdge, Function.comp]
    rw [hpair]
    refine hnodup.map ?_
    intro a b hab
    have := congrArg Prod.snd hab
    exact Option.some.inj this
  · intro p q hpq
    rw [hfilter, hpq, if_neg (by intro hc; rw [hc] at hpq; exact absurd hpq (by simp))]
    rfl

/-- Resources for the C1 witness: the spec scenario — one service with two
traffic entries (30 and 20) both naming revision r1. -/
def svcC1 : K8sResourceKind :=
  { kind := some "Service"
    metadata := { uid := some "svc-uid", name := some "svc" }
    status := some { traffic := some [ { revisionName := some "r1", percent := some 30 },
                                       { revisionName := some "r1", percent := some 20 } ] } }

def revC1 : K8sResourceKind :=
  { metadata := { uid := some "rev1-uid", name := some "r1" } }

/-- Witness for C1: the duplicate traffic entries merge into exactly one
edge `svc-uid_rev1-uid` with percent 30 + 20 = 50. -/
theorem getTrafficTopologyEdgeItems_merges_witness :
    (getTrafficTopologyEdgeItems svcC1 [revC1]).filter
        (fun e => decide (e.target = some "rev1-uid"))
      = [mkTrafficEdge (some "svc-uid") "rev1-uid" (some 50)] := by
  have h := (getTrafficTopologyEdgeItems_merges svcC1 [revC1] "rev1-uid"
    (by decide)).2.2 30 20 (by decide)
  simpa using h

/-! ## Claim C2 -/

/-- A node embedding the given sink uri in its display payload (the field
`getSinkTargetUid` scans). -/
def isSinkFor (u : String) (nd : NodeModel) : Bool :=
  decide ((some u : Option String) = nd.data.bind fun d => d.data.sinkUri)

/-- An edge of the event-source type targeting the sink-uri node id of
`u`. -/
def sinkEdgeP (u : String) (e : EdgeModel) : Bool :=
  decide (e.type = EdgeType.EventSource ∧ e.target = some (encodeURIComponent u))

theorem utf8Bytes_ne_nil (c : Char) : utf8Bytes c ≠ [] := by
  rw [utf8Bytes]
  split
  · simp
  · split
    · simp
    · split <;> simp

theorem string_append_ne_empty_left (a b : String) (h : a ≠ "") : a ++ b ≠ "" := by
  intro hc
  apply h
  have hd := congrArg String.data hc
  simp only [String.data_append] at hd
  rcases List.append_eq_nil.mp hd with ⟨h1, _⟩
  cases a
  simp only at h1
  simp [h1]

theorem encodeURIChar_ne_empty (c : Char) : encodeURIChar c ≠ "" := by
  rw [encodeURIChar]
  split
  · intro hc
    have hd := congrArg String.data hc
    simp [String.singleton] at hd
  · cases hb : utf8Bytes c with
    | nil => exact absurd hb (utf8Bytes_ne_nil c)
    | cons b bs =>
      rw [percentBytes]
      apply string_append_ne_empty_left
      intro hc
      have hd := congrArg String.data hc
      simp [percentByte] at hd

theorem encodeURIComponent_ne_empty (u : String) (hu : u ≠ "") : encodeURIComponent u ≠ "" := by
  rw [encodeURIComponent]
  cases hd : u.data with
  | nil =>
    exfalso
    apply hu
    cases u
    simp only at hd
    simp [hd]
  | cons c cs =>
    rw [encodeURIChars]
    exact string_append_ne_empty_left _ _ (encodeURIChar_ne_empty c)

theorem map_id_singleton (l : List NodeModel) (x : Option String)
    (h : l.map NodeModel.id = [x]) : ∃ nd, l = [nd] ∧ nd.id = x := by
  cases l with
  | nil => simp at h
  | cons a l =>
    cases l with
    | nil => exact ⟨a, rfl, by simpa using h⟩
    | cons b l => simp at h

theorem getSinkTargetUid_some_eq (nodes : List NodeModel) (u : String) :
    getSinkTargetUid nodes (some u)
      = (match nodes.find? (isSinkFor u) with
         | none => ""
         | some nd => nd.id.getD "") := rfl

theorem getKnativeTopologyNodeItems_eventSource (res : K8sResourceKind)
    (data : TopologyDataObject) (resources : TopologyDataResources) :
    getKnativeTopologyNodeItems res NodeType.EventSource data (some resources)
      = [getTopologyNodeItem res NodeType.EventSource (some data)
          (getKnNodeModelProps NodeType.EventSource)] := by
  rw [getKnativeTopologyNodeItems, if_neg (by decide)]

theorem isSinkFor_eventSourceNode (u : String) (res : K8sResourceKind)
    (item : TopologyOverviewItem) (type : String) (icon : Option String)
    (props : NodeModelProps) :
    isSinkFor u (getTopologyNodeItem res type
        (some (createTopologyNodeData res item type icon)) props) = false := by
  simp [isSinkFor, getTopologyNodeItem, createTopologyNodeData]

theorem getEventTopologyEdgeItems_targets (resource : K8sResourceKind)
    (data : List K8sResourceKind) :
    ∀ e ∈ getEventTopologyEdgeItems resource data, ∃ c ∈ data, e.target = c.metadata.uid := by
  rw [getEventTopologyEdgeItems]
  cases hsink : (match resource.spec.bind Spec.sink with
      | none => none
      | some s =>
        match s.ref with
        | some r => some r.name
        | none => (some none : Option (Option String))) with
  | none => intro e he; simp at he
  | some tname =>
    suffices h : ∀ (l : List K8sResourceKind) (acc : List EdgeModel),
        (∀ e ∈ acc, ∃ c ∈ data, e.target = c.metadata.uid) →
        (∀ c ∈ l, c ∈ data) →
        ∀ e ∈ l.foldl (fun edges res2 =>
          if res2.metadata.name = tname then
            edges ++ [{ id := jsStr resource.metadata.uid ++ "_" ++ jsStr res2.metadata.uid,
                        type := EdgeType.EventSource,
                        source := resource.metadata.uid, target := res2.metadata.uid }]
          else edges) acc, ∃ c ∈ data, e.target = c.metadata.uid by
      intro e he
      exact h data [] (by simp) (fun c hc => hc) e he
    intro l
    induction l with
    | nil => intro acc hacc _ e he; exact hacc e he
    | cons c l ih =>
      intro acc hacc hsub e he
      rw [List.foldl_cons] at he
      refine ih _ ?_ (fun c2 hc2 => hsub c2 (List.mem_cons_of_mem c hc2)) e he
      intro e2 he2
      by_cases hc : c.metadata.name = tname
      · rw [if_pos hc] at he2
        rcases List.mem_append.mp he2 with h2 | h2
        · exact hacc e2 h2
        · have he3 : e2.target = c.metadata.uid := by
            simp only [List.mem_singleton] at h2
            rw [h2]
          exact ⟨c, hsub c (List.mem_cons_self c l), he3⟩
      · rw [if_neg hc] at he2
        exact hacc e2 he2

theorem countP_eventEdges_zero (u : String) (resource : K8sResourceKind)
    (data : List K8sResourceKind)
    (h : ∀ c ∈ data, c.metadata.uid ≠ some (encodeURIComponent u)) :
    (getEventTopologyEdgeItems resource data).countP (sinkEdgeP u) = 0 := by
  rw [List.countP_eq_zero]
  intro e he
  rcases getEventTopologyEdgeItems_targets resource data e he with ⟨c, hc, htgt⟩
  rw [sinkEdgeP]
  simp only [decide_eq_true_eq, not_and]
  intro _ hc2
  exact h c hc (htgt ▸ hc2)

theorem mergeGroup_filter_sink (res : K8sResourceKind) (nodes : List NodeModel) (v : String) :
    ((mergeGroup (getTopologyGroupItems res) nodes).filter (isSinkFor v)).map NodeModel.id
      = (nodes.filter (isSinkFor v)).map NodeModel.id := by
  cases hg : getTopologyGroupItems res with
  | none => rfl
  | some g =>
    simp only [mergeGroup]
    have hgdata : g.data = none := by
      rw [getTopologyGroupItems] at hg
      cases hl : (res.metadata.labels.getD []).lookup "app.kubernetes.io/part-of" with
      | none => rw [hl] at hg; exact absurd hg (by simp)
      | some app =>
        rw [hl] at hg
        have hg2 := Option.some.inj hg
        rw [← hg2]
    by_cases hany : nodes.any (fun n => decide (n.id = g.id))
    · rw [if_pos hany, List.filter_map]
      have hcomp : (isSinkFor v ∘ fun n =>
          if n.id = g.id then
            { n with children := n.children ++ g.children.filter (fun c => decide (c ∉ n.children)) }
          else n) = isSinkFor v := by
        funext n
        by_cases hn : n.id = g.id <;> simp [Function.comp, hn, isSinkFor]
      rw [hcomp, List.map_map]
      refine List.map_congr_left fun n _ => ?_
      by_cases hn : n.id = g.id <;> simp [Function.comp, hn]
    · rw [if_neg hany, List.filter_append]
      have hgf : [g].filter (isSinkFor v) = [] := by
        simp [isSinkFor, hgdata]
      rw [hgf, List.append_nil]

theorem countP_sinkUriEdges (u : String) (res : K8sResourceKind) (targetUid : String) :
    (getSinkUriTopologyEdgeItems res targetUid).countP (sinkEdgeP u)
      = if (strTruthy (evSinkUri res) && strTruthy res.metadata.uid)
          ∧ targetUid = encodeURIComponent u then 1 else 0 := by
  rw [getSinkUriTopologyEdgeItems]
  by_cases hc : strTruthy (evSinkUri res) && strTruthy res.metadata.uid
  · rw [if_pos hc]
    by_cases ht : targetUid = encodeURIComponent u
    · rw [if_pos ⟨hc, ht⟩]
      simp [List.countP_cons, sinkEdgeP, EdgeType.EventSource, ht]
    · rw [if_neg (by intro h2; exact ht h2.2)]
      simp [List.countP_cons, sinkEdgeP, ht]
  · rw [if_neg (by simpa using hc), if_neg (by intro h2; exact hc h2.1)]
    rfl

theorem countP_channelFold (u : String) (resources : TopologyDataResources)
    (res : K8sResourceKind) :
    ∀ (chRefs : List String) (es : List EdgeModel),
      (∀ p ∈ chRefs, ∀ c ∈ (resources.dynamic.lookup p).getD [],
        c.metadata.uid ≠ some (encodeURIComponent u)) →
      (chRefs.foldl (fun es currentProp =>
        match resources.dynamic.lookup currentProp with
        | none => es
        | some l => es ++ getEventTopologyEdgeItems res l) es).countP (sinkEdgeP u)
        = es.countP (sinkEdgeP u) := by
  intro chRefs
  induction chRefs with
  | nil => intro es _; rfl
  | cons p ps ih =>
    intro es hchan
    cases hl : resources.dynamic.lookup p with
    | none =>
      simp only [List.foldl_cons, hl]
      exact ih _ (fun q hq => hchan q (List.mem_cons_of_mem p hq))
    | some l =>
      simp only [List.foldl_cons, hl]
      rw [ih _ (fun q hq => hchan q (List.mem_cons_of_mem p hq)), List.countP_append,
        countP_eventEdges_zero u res l ?_, Nat.add_zero]
      have hc := hchan p (List.mem_cons_self p ps)
      rw [hl] at hc
      exact hc

theorem sinkUriPart_not_truthy (esRefs : List String) (resources : TopologyDataResources)
    (res : K8sResourceKind) (data : TopologyDataObject) (nodes1 : List NodeModel)
    (edges1 : List EdgeModel) (h : strTruthy (evSinkUri res) = false) :
    sinkUriPart esRefs resources res data nodes1 edges1 = (nodes1, edges1) := by
  simp only [sinkUriPart, h, Bool.false_eq_true, if_false]

theorem sinkUriPart_found (esRefs : List String) (resources : TopologyDataResources)
    (res : K8sResourceKind) (data : TopologyDataObject) (nodes1 : List NodeModel)
    (edges1 : List EdgeModel) (u1 tgt : String)
    (huri : evSinkUri res = some u1) (hu1 : u1 ≠ "")
    (htgt : getSinkTargetUid nodes1 (some u1) = tgt) (htne : tgt ≠ "") :
    sinkUriPart esRefs resources res data nodes1 edges1
      = (nodes1, edges1 ++ getSinkUriTopologyEdgeItems res tgt) := by
  simp only [sinkUriPart, huri, htgt]
  rw [if_pos (show strTruthy (some u1) = true by simp [strTruthy, hu1]), if_neg htne]

theorem sinkUriPart_create (esRefs : List String) (resources : TopologyDataResources)
    (res : K8sResourceKind) (data : TopologyDataObject) (nodes1 : List NodeModel)
    (edges1 : List EdgeModel) (u1 : String)
    (huri : evSinkUri res = some u1) (hu1 : u1 ≠ "")
    (htgt : getSinkTargetUid nodes1 (some u1) = "") :
    (∀ v : String, v ≠ u1 →
      (sinkUriPart esRefs resources res data nodes1 edges1).1.filter (isSinkFor v)
        = nodes1.filter (isSinkFor v))
    ∧ ((sinkUriPart esRefs resources res data nodes1 edges1).1.filter (isSinkFor u1)).map NodeModel.id
        = (nodes1.filter (isSinkFor u1)).map NodeModel.id ++ [some (encodeURIComponent u1)]
    ∧ (sinkUriPart esRefs resources res data nodes1 edges1).2
        = edges1 ++ getSinkUriTopologyEdgeItems res (encodeURIComponent u1) := by
  refine ⟨?_, ?_, ?_⟩
  · intro v hv
    simp only [sinkUriPart, huri, htgt]
    rw [if_pos (show strTruthy (some u1) = true by simp [strTruthy, hu1])]
    simp only [if_true, eq_self_iff_true]
    simp [getSinkUriTopologyNodeItems, List.filter_append, isSinkFor, hv]
  · simp only [sinkUriPart, huri, htgt]
    rw [if_pos (show strTruthy (some u1) = true by simp [strTruthy, hu1])]
    simp only [if_true, eq_self_iff_true]
    simp [getSinkUriTopologyNodeItems, List.filter_append, isSinkFor]
  · simp only [sinkUriPart, huri, htgt]
    rw [if_pos (show strTruthy (some u1) = true by simp [strTruthy, hu1])]
    simp only [if_true, eq_self_iff_true]
    rfl

theorem getSinkTargetUid_of_inv_true (nodes : List NodeModel) (v : String)
    (h : (nodes.filter (isSinkFor v)).map NodeModel.id = [some (encodeURIComponent v)]) :
    getSinkTargetUid nodes (some v) = encodeURIComponent v := by
  rw [getSinkTargetUid_some_eq, find?_eq_head?_filter]
  obtain ⟨nd, hnd, hid⟩ := map_id_singleton _ _ h
  rw [hnd]
  show nd.id.getD "" = encodeURIComponent v
  rw [hid]
  rfl

theorem getSinkTargetUid_of_inv_false (nodes : List NodeModel) (v : String)
    (h : (nodes.filter (isSinkFor v)).map NodeModel.id = []) :
    getSinkTargetUid nodes (some v) = "" := by
  rw [getSinkTargetUid_some_eq, find?_eq_head?_filter]
  have h2 : nodes.filter (isSinkFor v) = [] := by
    cases hf : nodes.filter (isSinkFor v) with
    | nil => rfl
    | cons a l => rw [hf] at h; simp at h
  rw [h2]
  rfl

theorem transformStep_eventSource (esRefs chRefs : List String)
    (resources : TopologyDataResources) (utils : Option (List KnativeUtil))
    (m : Model) (res : K8sResourceKind) :
    transformStep esRefs chRefs NodeType.EventSource resources utils m res
      = transformEventSourceCase esRefs chRefs resources m res NodeType.EventSource
          (createKnativeDeploymentItems res resources utils) := by
  rw [transformStep, if_pos rfl]

theorem eventSourceAssembly_inv (esRefs chRefs : List String)
    (resources : TopologyDataResources) (res : K8sResourceKind) (u : String) (hu : u ≠ "")
    (hsvc : ∀ c ∈ resources.ksservices, c.metadata.uid ≠ some (encodeURIComponent u))
    (hbrk : ∀ c ∈ resources.brokers, c.metadata.uid ≠ some (encodeURIComponent u))
    (hchan : ∀ p ∈ chRefs, ∀ c ∈ (resources.dynamic.lookup p).getD [],
      c.metadata.uid ≠ some (encodeURIComponent u))
    (hinj : ∀ v, evSinkUri res = some v →
      encodeURIComponent v = encodeURIComponent u → v = u)
    (m : Model) (seen : String → Bool)
    (hnodes : ∀ v, v ≠ "" → (m.nodes.filter (isSinkFor v)).map NodeModel.id
      = (if seen v then [some (encodeURIComponent v)] else []))
    (data1 : TopologyDataObject) (hdata1 : data1.data.sinkUri = none) :
    (∀ v, v ≠ "" →
      (((mergeGroup (getTopologyGroupItems res)
          (sinkUriPart esRefs resources res data1
            (m.nodes ++ getKnativeTopologyNodeItems res NodeType.EventSource data1 (some resources))
            (m.edges ++ getEventTopologyEdgeItems res resources.ksservices)).1).filter
            (isSinkFor v)).map NodeModel.id
        = (if (seen v || decide (evSinkUri res = some v))
           then [some (encodeURIComponent v)] else [])))
    ∧ (((if isInternalResource res then
          (sinkUriPart esRefs resources res data1
            (m.nodes ++ getKnativeTopologyNodeItems res NodeType.EventSource data1 (some resources))
            (m.edges ++ getEventTopologyEdgeItems res resources.ksservices)).2
        else chRefs.foldl (fun es currentProp =>
          match resources.dynamic.lookup currentProp with
          | none => es
          | some l => es ++ getEventTopologyEdgeItems res l)
          (sinkUriPart esRefs resources res data1
            (m.nodes ++ getKnativeTopologyNodeItems res NodeType.EventSource data1 (some resources))
            (m.edges ++ getEventTopologyEdgeItems res resources.ksservices)).2)
        ++ getEventTopologyEdgeItems res resources.brokers).countP (sinkEdgeP u)
        = m.edges.countP (sinkEdgeP u)
          + (if evSinkUri res = some u ∧ strTruthy res.metadata.uid = true then 1 else 0)) := by
  have hF1 : ∀ v, v ≠ "" →
      (((m.nodes ++ getKnativeTopologyNodeItems res NodeType.EventSource data1
          (some resources)).filter (isSinkFor v)).map NodeModel.id)
        = (if seen v then [some (encodeURIComponent v)] else []) := by
    intro v hv
    rw [getKnativeTopologyNodeItems_eventSource, List.filter_append]
    have hone : [getTopologyNodeItem res NodeType.EventSource (some data1)
        (getKnNodeModelProps NodeType.EventSource)].filter (isSinkFor v) = [] := by
      simp [isSinkFor, getTopologyNodeItem, hdata1]
    rw [hone, List.append_nil]
    exact hnodes v hv
  have hF2 : (m.edges ++ getEventTopologyEdgeItems res resources.ksservices).countP (sinkEdgeP u)
      = m.edges.countP (sinkEdgeP u) := by
    rw [List.countP_append, countP_eventEdges_zero u res _ hsvc, Nat.add_zero]
  have hAssemble : ∀ (sp2 : List EdgeModel) (k : Nat), sp2.countP (sinkEdgeP u) = k →
      (((if isInternalResource res then sp2
        else chRefs.foldl (fun es currentProp =>
          match resources.dynamic.lookup currentProp with
          | none => es
          | some l => es ++ getEventTopologyEdgeItems res l) sp2)
        ++ getEventTopologyEdgeItems res resources.brokers).countP (sinkEdgeP u)) = k := by
    intro sp2 k hk
    rw [List.countP_append, countP_eventEdges_zero u res _ hbrk, Nat.add_zero]
    by_cases hint : isInternalResource res
    · rw [if_pos hint, hk]
    · rw [if_neg hint, countP_channelFold u resources res chRefs sp2 hchan, hk]
  cases huri : evSinkUri res with
  | none =>
    have hsppair := sinkUriPart_not_truthy esRefs resources res data1
      (m.nodes ++ getKnativeTopologyNodeItems res NodeType.EventSource data1 (some resources))
      (m.edges ++ getEventTopologyEdgeItems res resources.ksservices)
      (by rw [huri]; rfl)
    have hsp1 := congrArg Prod.fst hsppair
    have hsp2 := congrArg Prod.snd hsppair
    constructor
    · intro v hv
      rw [mergeGroup_filter_sink, hsp1, hF1 v hv]
      simp
    · refine hAssemble _ _ ?_
      rw [hsp2, hF2]
      simp
  | some u1 =>
    by_cases hu1 : u1 = ""
    · subst hu1
      have hsppair := sinkUriPart_not_truthy esRefs resources res data1
        (m.nodes ++ getKnativeTopologyNodeItems res NodeType.EventSource data1 (some resources))
        (m.edges ++ getEventTopologyEdgeItems res resources.ksservices)
        (by rw [huri]; rfl)
      have hsp1 := congrArg Prod.fst hsppair
      have hsp2 := congrArg Prod.snd hsppair
      constructor
      · intro v hv
        rw [mergeGroup_filter_sink, hsp1, hF1 v hv]
        have hdec : decide ((some "" : Option String) = some v) = false := by
          simp
          intro hc
          exact hv hc.symm
        rw [hdec, Bool.or_false]
      · refine hAssemble _ _ ?_
        rw [hsp2, hF2]
        have hcond : ¬((some "" : Option String) = some u ∧ strTruthy res.metadata.uid = true) := by
          intro hc
          exact hu (Option.some.inj hc.1).symm
        rw [if_neg hcond, Nat.add_zero]
    · have hcontrib : (getSinkUriTopologyEdgeItems res (encodeURIComponent u1)).countP (sinkEdgeP u)
          = (if evSinkUri res = some u ∧ strTruthy res.metadata.uid = true then 1 else 0) := by
        rw [countP_sinkUriEdges]
        by_cases huu : u1 = u
        · subst huu
          have hst : strTruthy (evSinkUri res) = true := by
            rw [huri]
            simp [strTruthy, hu1]
          by_cases htru : strTruthy res.metadata.uid = true
          · rw [if_pos ⟨by rw [hst, htru]; rfl, rfl⟩, if_pos ⟨huri, htru⟩]
          · rw [if_neg ?_, if_neg (fun hc => htru hc.2)]
            intro hc
            have hb := hc.1
            rw [Bool.and_eq_true] at hb
            exact htru hb.2
        · have hne : encodeURIComponent u1 ≠ encodeURIComponent u :=
            fun h => huu (hinj u1 huri h)
          rw [if_neg (fun hc => hne hc.2), if_neg ?_]
          intro hc
          exact huu (Option.some.inj (huri.symm.trans hc.1))
      by_cases hseen : seen u1 = true
      · have hstu : getSinkTargetUid
            (m.nodes ++ getKnativeTopologyNodeItems res NodeType.EventSource data1 (some resources))
            (some u1) = encodeURIComponent u1 :=
          getSinkTargetUid_of_inv_true _ u1 (by rw [hF1 u1 hu1, if_pos hseen])
        have hsppair := sinkUriPart_found esRefs resources res data1
          (m.nodes ++ getKnativeTopologyNodeItems res NodeType.EventSource data1 (some resources))
          (m.edges ++ getEventTopologyEdgeItems res resources.ksservices)
          u1 (encodeURIComponent u1) huri hu1 hstu (encodeURIComponent_ne_empty u1 hu1)
        have hsp1 := congrArg Prod.fst hsppair
        have hsp2 := congrArg Prod.snd hsppair
        constructor
        · intro v hv
          rw [mergeGroup_filter_sink, hsp1, hF1 v hv]
          by_cases hvu : v = u1
          · subst hvu
            rw [if_pos hseen, if_pos (by rw [hseen]; rfl)]
          · have hdec : decide ((some u1 : Option String) = some v) = false := by
              simp
              intro hc
              exact hvu hc.symm
            rw [hdec, Bool.or_false]
        · refine hAssemble _ _ ?_
          rw [hsp2, List.countP_append, hF2, hcontrib, huri]
      · have hstu : getSinkTargetUid
            (m.nodes ++ getKnativeTopologyNodeItems res NodeType.EventSource data1 (some resources))
            (some u1) = "" :=
          getSinkTargetUid_of_inv_false _ u1
            (by rw [hF1 u1 hu1, if_neg (by simpa using hseen)])
        obtain ⟨hA, hB, hC⟩ := sinkUriPart_create esRefs resources res data1
          (m.nodes ++ getKnativeTopologyNodeItems res NodeType.EventSource data1 (some resources))
          (m.edges ++ getEventTopologyEdgeItems res resources.ksservices)
          u1 huri hu1 hstu
        constructor
        · intro v hv
          rw [mergeGroup_filter_sink]
          by_cases hvu : v = u1
          · subst hvu
            rw [hB, hF1 v hv, if_neg (by simpa using hseen),
              if_pos (by simp), List.nil_append]
          · rw [hA v hvu, hF1 v hv]
            have hdec : decide ((some u1 : Option String) = some v) = false := by
              simp
              intro hc
              exact hvu hc.symm
            rw [hdec, Bool.or_false]
        · refine hAssemble _ _ ?_
          rw [hC, List.countP_append, hF2, hcontrib, huri]

theorem eventSourceStep_inv (esRefs chRefs : List String)
    (resources : TopologyDataResources) (utils : Option (List KnativeUtil))
    (u : String) (hu : u ≠ "")
    (hsvc : ∀ c ∈ resources.ksservices, c.metadata.uid ≠ some (encodeURIComponent u))
    (hbrk : ∀ c ∈ resources.brokers, c.metadata.uid ≠ some (encodeURIComponent u))
    (hchan : ∀ p ∈ chRefs, ∀ c ∈ (resources.dynamic.lookup p).getD [],
      c.metadata.uid ≠ some (encodeURIComponent u))
    (res : K8sResourceKind)
    (hinj : ∀ v, evSinkUri res = some v →
      encodeURIComponent v = encodeURIComponent u → v = u)
    (m : Model) (seen : String → Bool)
    (hnodes : ∀ v, v ≠ "" → (m.nodes.filter (isSinkFor v)).map NodeModel.id
      = (if seen v then [some (encodeURIComponent v)] else [])) :
    (∀ v, v ≠ "" →
      (((transformStep esRefs chRefs NodeType.EventSource resources utils m res).nodes.filter
          (isSinkFor v)).map NodeModel.id
        = (if (seen v || decide (evSinkUri res = some v))
           then [some (encodeURIComponent v)] else [])))
    ∧ (transformStep esRefs chRefs NodeType.EventSource resources utils m res).edges.countP
        (sinkEdgeP u)
        = m.edges.countP (sinkEdgeP u)
          + (if evSinkUri res = some u ∧ strTruthy res.metadata.uid = true then 1 else 0) := by
  have h := eventSourceAssembly_inv esRefs chRefs resources res u hu hsvc hbrk hchan hinj m seen
    hnodes
    (createTopologyNodeData res (createKnativeDeploymentItems res resources utils)
      NodeType.EventSource ( getImageForIconCls "icon-openshift")) rfl
  rw [transformStep_eventSource]
  exact h

theorem eventSourceFold_inv (esRefs chRefs : List String)
    (resources : TopologyDataResources) (utils : Option (List KnativeUtil))
    (u : String) (hu : u ≠ "")
    (hsvc : ∀ c ∈ resources.ksservices, c.metadata.uid ≠ some (encodeURIComponent u))
    (hbrk : ∀ c ∈ resources.brokers, c.metadata.uid ≠ some (encodeURIComponent u))
    (hchan : ∀ p ∈ chRefs, ∀ c ∈ (resources.dynamic.lookup p).getD [],
      c.metadata.uid ≠ some (encodeURIComponent u)) :
    ∀ (todo : List K8sResourceKind),
      (∀ r ∈ todo, ∀ v, evSinkUri r = some v →
        encodeURIComponent v = encodeURIComponent u → v = u) →
      ∀ (m : Model) (seen : String → Bool),
      (∀ v, v ≠ "" → (m.nodes.filter (isSinkFor v)).map NodeModel.id
          = (if seen v then [some (encodeURIComponent v)] else [])) →
      (∀ v, v ≠ "" →
        (((todo.foldl (transformStep esRefs chRefs NodeType.EventSource resources utils)
            m).nodes.filter (isSinkFor v)).map NodeModel.id
          = (if (seen v || todo.any fun r => decide (evSinkUri r = some v))
             then [some (encodeURIComponent v)] else [])))
      ∧ (todo.foldl (transformStep esRefs chRefs NodeType.EventSource resources utils)
          m).edges.countP (sinkEdgeP u)
          = m.edges.countP (sinkEdgeP u)
            + todo.countP (fun r =>
                decide (evSinkUri r = some u ∧ strTruthy r.metadata.uid = true)) := by
  intro todo
  induction todo with
  | nil =>
    intro _ m seen hn
    exact ⟨fun v hv => by simpa using hn v hv, by simp⟩
  | cons r todo ih =>
    intro hinj m seen hn
    rw [List.foldl_cons]
    have hstep := eventSourceStep_inv esRefs chRefs resources utils u hu hsvc hbrk hchan r
      (hinj r (List.mem_cons_self r todo)) m seen hn
    have hih := ih (fun r2 hr2 => hinj r2 (List.mem_cons_of_mem r hr2))
      (transformStep esRefs chRefs NodeType.EventSource resources utils m r)
      (fun v => seen v || decide (evSinkUri r = some v))
      hstep.1
    constructor
    · intro v hv
      rw [hih.1 v hv]
      have hcond : ((seen v || decide (evSinkUri r = some v))
            || todo.any fun r2 => decide (evSinkUri r2 = some v))
          = (seen v || (r :: todo).any fun r2 => decide (evSinkUri r2 = some v)) := by
        rw [List.any_cons, Bool.or_assoc]
      rw [hcond]
    · rw [hih.2, hstep.2, List.countP_cons]
      by_cases hP : evSinkUri r = some u ∧ strTruthy r.metadata.uid = true
      · simp only [hP, decide_eq_true_eq, if_pos hP, decide_true_eq_true]
        simp [hP]
        omega
      · simp [hP]

/-- Claim C2: in the event-source pass of the Graph Assembler a synthetic
sink-uri node is created at most once per distinct `spec.sink.uri`: the
node list carries exactly one node embedding uri `u` — with id
`encodeURIComponent u` — when some processed event source has that uri and
none otherwise, and the number of edges of the event-source type targeting
the sink-uri node id equals the number of event sources with that uri (and
a truthy uid) — every later source reuses the node and only adds its edge.
The collision hypotheses rule out candidate resources whose uid happens to
equal the encoded uri and distinct uris with the same encoding. -/
theorem transformKnNodeData_sink_uri_dedup (esRefs chRefs : List String)
    (list : List K8sResourceKind) (resources : TopologyDataResources)
    (utils : Option (List KnativeUtil)) (u : String) (hu : u ≠ "")
    (hsvc : ∀ c ∈ resources.ksservices, c.metadata.uid ≠ some (encodeURIComponent u))
    (hbrk : ∀ c ∈ resources.brokers, c.metadata.uid ≠ some (encodeURIComponent u))
    (hchan : ∀ p ∈ chRefs, ∀ c ∈ (resources.dynamic.lookup p).getD [],
      c.metadata.uid ≠ some (encodeURIComponent u))
    (hinj : ∀ r ∈ list, ∀ v, evSinkUri r = some v →
      encodeURIComponent v = encodeURIComponent u → v = u) :
    (((transformKnNodeData esRefs chRefs list NodeType.EventSource resources utils).nodes.filter
        (isSinkFor u)).map NodeModel.id
      = (if list.any (fun r => decide (evSinkUri r = some u))
         then [some (encodeURIComponent u)] else []))
    ∧ (transformKnNodeData esRefs chRefs list NodeType.EventSource resources
        utils).edges.countP (sinkEdgeP u)
      = list.countP (fun r =>
          decide (evSinkUri r = some u ∧ strTruthy r.metadata.uid = true)) := by
  have h := eventSourceFold_inv esRefs chRefs resources utils u hu hsvc hbrk hchan list hinj
    {} (fun _ => false) (fun v _ => rfl)
  rw [transformKnNodeData]
  constructor
  · have h1 := h.1 u hu
    simpa using h1
  · have h2 := h.2
    simpa using h2

/-- Resources for the C2 witness: two distinct event sources both sinking
into the uri `http://x`. -/
def esC2a : K8sResourceKind :=
  { kind := some "ApiServerSource"
    metadata := { uid := some "es-1", name := some "src1" }
    spec := some { sink := some { uri := some "http://x" } } }

def esC2b : K8sResourceKind :=
  { kind := some "ApiServerSource"
    metadata := { uid := some "es-2", name := some "src2" }
    spec := some { sink := some { uri := some "http://x" } } }

def resourcesC2 : TopologyDataResources := { deployments := some [] }

/-- Witness for C2: the two sources yield exactly one sink-uri node, with
id `encodeURIComponent "http://x"` = `"http%3A%2F%2Fx"`, and two edges
targeting it. -/
theorem transformKnNodeData_sink_uri_dedup_witness :
    (((transformKnNodeData [] [] [esC2a, esC2b] NodeType.EventSource resourcesC2 none).nodes.filter
        (isSinkFor "http://x")).map NodeModel.id = [some "http%3A%2F%2Fx"])
    ∧ (transformKnNodeData [] [] [esC2a, esC2b] NodeType.EventSource resourcesC2
        none).edges.countP (sinkEdgeP "http://x") = 2 := by
  have h := transformKnNodeData_sink_uri_dedup [] [] [esC2a, esC2b] resourcesC2 none "http://x"
    (by decide) (by simp [resourcesC2]) (by simp [resourcesC2]) (by simp)
    (by
      intro r hr v h1 h2
      simp only [List.mem_cons, List.not_mem_nil, or_false] at hr
      have huri : evSinkUri r = some "http://x" := by
        rcases hr with rfl | rfl <;> rfl
      rw [huri] at h1
      exact (Option.some.inj h1).symm)
  refine ⟨?_, ?_⟩
  · rw [h.1]
    decide
  · rw [h.2]
    decide
